import Mathlib

/-!
Verification of the cortex-mcp memory engine against its specification.

The definitions below are a shallow embedding of the TypeScript sources:

* `src/db/memory-store.ts`   — `MemoryStore` (add, findDuplicate, tokenize, touch,
  deactivate, update, getActive, getByType, activeCount, addEdge, searchVector).
* `src/memory/memory-decay.ts` (`cleanupMemories`), `src/config/config.ts` (CONFIG).
* `src/memory/confidence-decay.ts` (`effectiveImportance`, `runDecayMaintenance`).
* `src/memory/memory-ranker.ts` (`rankResults`, `formatResults`).
* `src/memory/export-import.ts` (`importMemories`).
* `src/memory/memory-cache.ts` and the recall/store handlers of
  `src/server/mcp-handler.ts`, plus the degraded-mode fallback of `src/mcp-stdio.ts`.

Modelling conventions:

* The SQLite row set of `memory_units` is a Lean list in rowid (insertion) order;
  `SELECT ... LIMIT n` without `ORDER BY` reads the first `n` rows in that order.
* JavaScript numbers are modelled as `ℚ` (exact arithmetic); epoch-millisecond
  times are `ℕ`.  Numeric literals that occur in executable comparison paths are
  written with `mkRat` (kernel-reducible); lemmas relate them to `p / q` form.
* `Array.prototype.sort(cmp)` is a stable sort and is modelled by
  `List.insertionSort`, which is stable for the induced total preorder.
* JavaScript truthiness on optional values is modelled with `Option`; the few
  places where `0` or `""` are falsy are noted at the definition site.
-/

set_option maxHeartbeats 1000000
set_option maxRecDepth 100000

namespace Cortex

/-- ASCII lowercasing of one character (JS `toLowerCase` on the inputs considered). -/
def lowerChar (c : Char) : Char :=
  if 'A' ≤ c ∧ c ≤ 'Z' then Char.ofNat (c.toNat + 32) else c

/-- Lowercase a string character by character. -/
def lowerStr (s : String) : String := ⟨s.data.map lowerChar⟩

/-- Whitespace test matching the JS regex class `\s` on the inputs considered. -/
def isWs (c : Char) : Bool := c = ' ' ∨ c = '\t' ∨ c = '\n' ∨ c = '\r'

/-- JS `String.prototype.trim`: strip leading and trailing whitespace. -/
def trimStr (s : String) : String :=
  ⟨(s.data.dropWhile (fun c => isWs c)).reverse.dropWhile (fun c => isWs c) |>.reverse⟩

/-- The stop-word list of `MemoryStore.tokenize` (memory-store.ts). -/
def STOP_WORDS : List String :=
  ["the", "a", "an", "is", "are", "was", "were", "to", "of", "in", "for", "on",
   "with", "at", "by", "from", "use", "always", "never", "should", "must", "not",
   "do", "be", "it", "this", "that", "and", "or", "but"]

/-- `MemoryStore.tokenize`: lowercase, replace every character outside
`[a-z0-9\s]` by a space, split on whitespace, keep words of length `> 2` that
are not stop words.  (JS `split(/\s+/)` can yield empty fragments at runs of
separators; the length filter removes them, as it does in the source.) -/
def tokenize (text : String) : List String :=
  let cleaned := (lowerStr text).data.map
    (fun c => if ('a' ≤ c ∧ c ≤ 'z') ∨ ('0' ≤ c ∧ c ≤ '9') ∨ isWs c then c else ' ')
  ((cleaned.splitOnP (fun c => isWs c)).map (fun l => (⟨l⟩ : String))).filter
    (fun w => decide (2 < w.length) && ! STOP_WORDS.contains w)

/-- The token set of a text (the JS code builds a `Set` from `tokenize`). -/
def tokenSet (text : String) : Finset String := (tokenize text).toFinset

/-- Word-overlap similarity used by `findDuplicate`:
`intersection / union`, and `0` when the union is empty.
`mkRat` is the exact rational quotient (see `jaccardSim_eq_div`). -/
def jaccardSim (A B : Finset String) : ℚ :=
  let inter := (A ∩ B).card
  let union := (A ∪ B).card
  if 0 < union then mkRat inter union else 0

theorem jaccardSim_eq_div (A B : Finset String) :
    jaccardSim A B =
      if 0 < (A ∪ B).card then ((A ∩ B).card : ℚ) / ((A ∪ B).card : ℚ) else 0 := by
  simp only [jaccardSim, Rat.mkRat_eq_div, Int.cast_natCast]

/-- The memory kinds (`MemoryType` in src/types). -/
inductive MemoryType
  | DECISION | CORRECTION | BUG_FIX | CONVENTION | INSIGHT
  | FAILED_SUGGESTION | CONVERSATION | PROVEN_PATTERN | DEPENDENCY
deriving DecidableEq, Repr

/-- The enum string of a kind (values of the TS string enum). -/
def MemoryType.str : MemoryType → String
  | .DECISION => "DECISION"
  | .CORRECTION => "CORRECTION"
  | .BUG_FIX => "BUG_FIX"
  | .CONVENTION => "CONVENTION"
  | .INSIGHT => "INSIGHT"
  | .FAILED_SUGGESTION => "FAILED_SUGGESTION"
  | .CONVERSATION => "CONVERSATION"
  | .PROVEN_PATTERN => "PROVEN_PATTERN"
  | .DEPENDENCY => "DEPENDENCY"

/-- A row of `memory_units` / the `MemoryUnit` interface. -/
structure MemoryUnit where
  id : String
  type : MemoryType
  intent : String
  action : String
  reason : Option String := none
  impact : Option String := none
  outcome : String := "unknown"
  relatedFiles : List String := []
  codeSnippet : Option String := none
  tags : List String := []
  timestamp : Nat := 0
  confidence : ℚ := mkRat 1 2
  importance : ℚ := mkRat 1 2
  accessCount : Nat := 0
  lastAccessed : Option Nat := none
  supersededBy : Option String := none
  isActive : Bool := true
  sourceEventId : Option String := none
  createdAt : Nat := 0
deriving DecidableEq, Repr

/-- A row of `edges` (primary key `(source_id, target_id, relation)`). -/
structure GraphEdge where
  sourceId : String
  targetId : String
  relation : String
  weight : ℚ
  timestamp : Nat
deriving DecidableEq, Repr

/-- The persistent state a `MemoryStore` operates on: the `memory_units` rows in
rowid order, the `edges` rows, the in-memory vector index (a JS `Map`, i.e. an
insertion-ordered association list), and a counter from which `uuidv4` draws
fresh identifiers. -/
structure Store where
  memories : List MemoryUnit := []
  edges : List GraphEdge := []
  vectors : List (String × List ℚ) := []
  nextId : Nat := 0
deriving DecidableEq, Repr

/-- Fresh id supply standing for `uuidv4()`. -/
def uuid (n : Nat) : String := "uuid-" ++ Nat.repr n

/-- `MemoryStore.get`: `SELECT * FROM memory_units WHERE id = ?` (first row). -/
def getMem (s : Store) (id : String) : Option MemoryUnit :=
  s.memories.find? (fun m => decide (m.id = id))

/-- `MemoryStore.touch`: increment `access_count`, set `last_accessed = now`
on every row with the given id. -/
def touch (s : Store) (id : String) (now : Nat) : Store :=
  { s with memories := s.memories.map (fun m =>
      if m.id = id then { m with accessCount := m.accessCount + 1, lastAccessed := some now }
      else m) }

/-- `MemoryStore.deactivate`: set `is_active = 0`, `superseded_by = @supersededBy`
(`null` when absent) on every row with the given id. -/
def deactivate (s : Store) (id : String) (supersededBy : Option String) : Store :=
  { s with memories := s.memories.map (fun m =>
      if m.id = id then { m with isActive := false, supersededBy := supersededBy }
      else m) }

/-- Field updates accepted by `MemoryStore.update`.  `accessCount` is accepted by
the TS signature but the prepared `UPDATE` statement does not set it, so it is
ignored here as well. -/
structure UpdateArgs where
  intent : Option String := none
  action : Option String := none
  reason : Option String := none
  impact : Option String := none
  outcome : Option String := none
  relatedFiles : Option (List String) := none
  codeSnippet : Option String := none
  tags : Option (List String) := none
  confidence : Option ℚ := none
  importance : Option ℚ := none
  timestamp : Option Nat := none
  accessCount : Option Nat := none
deriving DecidableEq, Repr

/-- The row produced by `updateMemoryStmt` from the fetched row and the updates
(`||` / `??` fallbacks of the source; `Option.getD` models both on the
non-falsy inputs considered). -/
def applyUpdate (existing : MemoryUnit) (u : UpdateArgs) : MemoryUnit :=
  { existing with
    intent := u.intent.getD existing.intent
    action := u.action.getD existing.action
    reason := u.reason <|> existing.reason
    impact := u.impact <|> existing.impact
    outcome := u.outcome.getD existing.outcome
    relatedFiles := u.relatedFiles.getD existing.relatedFiles
    codeSnippet := u.codeSnippet <|> existing.codeSnippet
    tags := u.tags.getD existing.tags
    confidence := u.confidence.getD existing.confidence
    importance := u.importance.getD existing.importance
    timestamp := u.timestamp.getD existing.timestamp }

/-- `MemoryStore.update`: fetch the row by id (no-op when absent), then run the
`UPDATE` on every row with that id. -/
def update (s : Store) (id : String) (u : UpdateArgs) : Store :=
  match getMem s id with
  | none => s
  | some existing =>
      { s with memories := s.memories.map (fun m =>
          if m.id = id then applyUpdate existing u else m) }

/-- Stable descending sort on `timestamp` (`ORDER BY timestamp DESC`). -/
def sortByTimestampDesc (ms : List MemoryUnit) : List MemoryUnit :=
  List.insertionSort (fun a b => b.timestamp ≤ a.timestamp) ms

/-- `MemoryStore.getActive`: active rows, `ORDER BY timestamp DESC LIMIT ?`. -/
def getActive (s : Store) (limit : Nat) : List MemoryUnit :=
  (sortByTimestampDesc (s.memories.filter (fun m => m.isActive))).take limit

/-- `MemoryStore.getByType`: active rows of one kind, newest first, limited. -/
def getByType (s : Store) (ty : MemoryType) (limit : Nat) : List MemoryUnit :=
  (sortByTimestampDesc (s.memories.filter
    (fun m => decide (m.type = ty) && m.isActive))).take limit

/-- `MemoryStore.activeCount`: `COUNT(*)` over active rows. -/
def activeCount (s : Store) : Nat :=
  (s.memories.filter (fun m => m.isActive)).length

/-- `MemoryStore.totalCount`. -/
def totalCount (s : Store) : Nat := s.memories.length

/-- `MemoryStore.addEdge`: `INSERT OR REPLACE` keyed on
`(source_id, target_id, relation)`. -/
def addEdge (s : Store) (e : GraphEdge) : Store :=
  { s with edges := (s.edges.filter (fun e0 =>
      !(decide (e0.sourceId = e.sourceId) && decide (e0.targetId = e.targetId)
        && decide (e0.relation = e.relation)))) ++ [e] }

/-- The dedup threshold `0.7` of `findDuplicate`. -/
def DEDUP_SIM_THRESHOLD : ℚ := mkRat 7 10

theorem DEDUP_SIM_THRESHOLD_eq : DEDUP_SIM_THRESHOLD = 7 / 10 := by
  simp only [DEDUP_SIM_THRESHOLD, Rat.mkRat_eq_div]; norm_num

/-- `MemoryStore.findDuplicate`: scan up to 200 active rows of the kind
(`SELECT ... WHERE type = ? AND is_active = 1 LIMIT 200`, rowid order), return
the first whose intent has Jaccard similarity `≥ 0.7` with the new intent;
`undefined` when the new intent has no tokens. -/
def findDuplicate (s : Store) (ty : MemoryType) (intent : String) : Option MemoryUnit :=
  let candidates := (s.memories.filter (fun m => decide (m.type = ty) && m.isActive)).take 200
  let newWords := tokenSet intent
  if newWords.card = 0 then none
  else candidates.find? (fun row =>
    decide (DEDUP_SIM_THRESHOLD ≤ jaccardSim newWords (tokenSet row.intent)))

/-- The argument record of `MemoryStore.add` (a `Partial<MemoryUnit>` with the
three required fields). -/
structure AddArgs where
  type : MemoryType
  intent : String
  action : String
  id : Option String := none
  reason : Option String := none
  impact : Option String := none
  outcome : Option String := none
  relatedFiles : Option (List String) := none
  codeSnippet : Option String := none
  tags : Option (List String) := none
  timestamp : Option Nat := none
  confidence : Option ℚ := none
  importance : Option ℚ := none
  sourceEventId : Option String := none
deriving DecidableEq, Repr

/-- `MemoryStore.add`: dedup check first (touch and return the duplicate as-is),
otherwise insert a fresh row with a new id and the defaulted fields of the
source (`access_count 0`, `last_accessed NULL`, `superseded_by NULL`,
`is_active 1`, `created_at now`). -/
def add (s : Store) (memory : AddArgs) (now : Nat) : Store × MemoryUnit :=
  match findDuplicate s memory.type memory.intent with
  | some duplicate => (touch s duplicate.id now, duplicate)
  | none =>
      let id := memory.id.getD (uuid s.nextId)
      let full : MemoryUnit :=
        { id := id
          type := memory.type
          intent := memory.intent
          action := memory.action
          reason := memory.reason
          impact := memory.impact
          outcome := memory.outcome.getD "unknown"
          relatedFiles := memory.relatedFiles.getD []
          codeSnippet := memory.codeSnippet
          tags := memory.tags.getD []
          timestamp := memory.timestamp.getD now
          confidence := memory.confidence.getD (mkRat 1 2)
          importance := memory.importance.getD (mkRat 1 2)
          accessCount := 0
          lastAccessed := none
          supersededBy := none
          isActive := true
          sourceEventId := memory.sourceEventId
          createdAt := now }
      ({ s with memories := s.memories ++ [full], nextId := s.nextId + 1 }, full)

/-! ### Configuration (src/config/config.ts) -/

def INSIGHT_MAX_AGE_DAYS : Nat := 30
def UNUSED_MAX_AGE_DAYS : Nat := 60
def MEMORY_CAP : Nat := 500
def CACHE_TTL : Nat := 60000
def CACHE_MAX : Nat := 50

/-- One day in epoch milliseconds. -/
def DAY_MS : Nat := 86400000

/-- `CONFIG.TYPE_BOOST[type] || 1.0` (kinds absent from the table get `1.0`). -/
def typeBoost : MemoryType → ℚ
  | .CORRECTION => mkRat 3 2
  | .DECISION => mkRat 13 10
  | .CONVENTION => mkRat 6 5
  | .BUG_FIX => mkRat 11 10
  | .INSIGHT => 1
  | .DEPENDENCY => mkRat 4 5
  | _ => 1

/-! ### Memory decay (src/memory/memory-decay.ts, `cleanupMemories`) -/

/-- Group key of the duplicate-merge step: `intent.toLowerCase().trim()`. -/
def intentKey (m : MemoryUnit) : String := trimStr (lowerStr m.intent)

/-- The `Map<string, MemoryUnit[]>` of the duplicate-merge step, in key
insertion order, each group in scan order. -/
def groupByIntentKey (ms : List MemoryUnit) : List (String × List MemoryUnit) :=
  ms.foldl (fun acc m =>
    let key := intentKey m
    if acc.any (fun g => g.1 = key) then
      acc.map (fun g => if g.1 = key then (g.1, g.2 ++ [m]) else g)
    else acc ++ [(key, [m])]) []

/-- One group of the duplicate-merge step: keep the highest-importance member
(stable sort descending), strengthen it, deactivate the rest with
`superseded_by` pointing at the keeper.  (The source also passes `accessCount`
to `update`, which the prepared statement ignores; see `UpdateArgs`.) -/
def mergeDupGroup (st : Store) (dupes0 : List MemoryUnit) : Store :=
  if dupes0.length ≤ 1 then st
  else
    let dupes := List.insertionSort (fun a b => b.importance ≤ a.importance) dupes0
    match dupes with
    | [] => st
    | keeper :: rest =>
        let strengthBoost := min (((keeper :: rest).length : ℚ) * mkRat 5 100) (mkRat 3 10)
        let st1 := update st keeper.id
          { importance := some (min (keeper.importance + strengthBoost) 1) }
        rest.foldl (fun st2 m => deactivate st2 m.id (some keeper.id)) st1

/-- Step 1 of `cleanupMemories`: deactivate INSIGHT rows with no accesses whose
age exceeds `INSIGHT_MAX_AGE_DAYS` (the snapshot `insights` is read once). -/
def cleanupStep1 (s : Store) (now : Nat) : Store :=
  (getByType s .INSIGHT 5000).foldl (fun st m =>
    if m.accessCount = 0 ∧ INSIGHT_MAX_AGE_DAYS * DAY_MS < now - m.createdAt
    then deactivate st m.id none else st) s

/-- Step 2 of `cleanupMemories`: deactivate any active row with no accesses
whose age exceeds `UNUSED_MAX_AGE_DAYS`. -/
def cleanupStep2 (s : Store) (now : Nat) : Store :=
  (getActive s 5000).foldl (fun st m =>
    if m.accessCount = 0 ∧ UNUSED_MAX_AGE_DAYS * DAY_MS < now - m.createdAt
    then deactivate st m.id none else st) s

/-- Step 3 of `cleanupMemories`: when more than `MEMORY_CAP` rows are active,
deactivate the lowest-importance surplus (stable ascending sort). -/
def cleanupStep3 (s : Store) : Store :=
  if MEMORY_CAP < (getActive s 5000).length then
    ((List.insertionSort (fun a b => a.importance ≤ b.importance)
        (getActive s 5000)).take ((getActive s 5000).length - MEMORY_CAP)).foldl
      (fun st m => deactivate st m.id none) s
  else s

/-- Step 4 of `cleanupMemories`: merge groups of identical normalized intents. -/
def cleanupStep4 (s : Store) : Store :=
  (groupByIntentKey (getActive s 5000)).foldl (fun st g => mergeDupGroup st g.2) s

/-- `cleanupMemories`: the four steps in source order (the source threads the
intermediate stores through local bindings). -/
def cleanupMemories (s : Store) (now : Nat) : Store :=
  cleanupStep4 (cleanupStep3 (cleanupStep2 (cleanupStep1 s now) now))

/-! ### Confidence decay (src/memory/confidence-decay.ts) -/

def DECAY_RATE : ℚ := mkRat 2 100
def ACCESS_BOOST_RATE : ℚ := mkRat 1 10
def MAX_ACCESS_BOOST : ℚ := 2
def MIN_IMPORTANCE : ℚ := mkRat 1 10

/-- `effectiveImportance`.  A `lastAccessed` of `0` is falsy in JS and takes the
no-recency branch, hence the `la = 0` case. -/
def effectiveImportance (baseImportance : ℚ) (timestamp : Nat) (accessCount : Nat)
    (lastAccessed : Option Nat) (now : Nat) : ℚ :=
  let ageInDays : ℚ := ((now : ℚ) - (timestamp : ℚ)) / 86400000
  let decayFactor := 1 / (1 + ageInDays * DECAY_RATE)
  let accessBoost := min MAX_ACCESS_BOOST (1 + (accessCount : ℚ) * ACCESS_BOOST_RATE)
  let recencyBoost : ℚ :=
    match lastAccessed with
    | none => 1
    | some la =>
        if la = 0 then 1
        else
          let daysSinceAccess : ℚ := ((now : ℚ) - (la : ℚ)) / 86400000
          if daysSinceAccess < 1 then mkRat 13 10
          else if daysSinceAccess < 7 then mkRat 11 10
          else 1
  let effective := baseImportance * decayFactor * accessBoost * recencyBoost
  max MIN_IMPORTANCE (min 1 effective)

/-- `effectiveImportance` applied to a row, as `runDecayMaintenance` does. -/
def effImp (m : MemoryUnit) (now : Nat) : ℚ :=
  effectiveImportance m.importance m.timestamp m.accessCount m.lastAccessed now

/-- `runDecayMaintenance`: recompute over the first 500 active rows; persist
only when the recomputed importance differs from the current one by more than
`0.05`; return the updated store with the count of persisted updates. -/
def runDecayMaintenance (s : Store) (now : Nat) : Store × Nat :=
  (getActive s 500).foldl (fun (p : Store × Nat) m =>
    let current := m.importance
    let effective := effImp m now
    if mkRat 5 100 < |current - effective| then
      (update p.1 m.id { importance := some effective }, p.2 + 1)
    else p) (s, 0)

/-- Modelled from the spec (§4.7.1): the effective-importance formula exactly as
the specification and claim C5 state it, written independently of the code. -/
def specEffectiveImportance (base : ℚ) (timestamp : Nat) (accessCount : Nat)
    (lastAccessed : Option Nat) (now : Nat) : ℚ :=
  let ageDays : ℚ := ((now : ℚ) - (timestamp : ℚ)) / 86400000
  let decay : ℚ := 1 / (1 + ageDays * (2 / 100))
  let accessBoost : ℚ := min 2 (1 + (1 / 10) * (accessCount : ℚ))
  let recencyBoost : ℚ :=
    match lastAccessed with
    | none => 1
    | some la =>
        if ((now : ℚ) - (la : ℚ)) / 86400000 < 1 then 13 / 10
        else if ((now : ℚ) - (la : ℚ)) / 86400000 < 7 then 11 / 10
        else 1
  max (1 / 10) (min 1 (base * decay * accessBoost * recencyBoost))

/-! ### Ranker (src/memory/memory-ranker.ts) -/

/-- A scored search result (`ScoredMemory` / `RankedResult`). -/
structure ScoredMemory where
  memory : MemoryUnit
  score : ℚ
deriving DecidableEq, Repr

/-- JS `hay.includes(needle)`: substring test. -/
def strIncludes (hay needle : String) : Bool := decide (needle.data <:+: hay.data)

/-- Age base `createdAt || timestamp || 0` of `rankResults` (`0` is falsy). -/
def ageBase (m : MemoryUnit) : Nat :=
  if m.createdAt ≠ 0 then m.createdAt else if m.timestamp ≠ 0 then m.timestamp else 0

/-- Recency boost of `rankResults`: `< 1 day → 1.5`, `< 7 days → 1.2`, else 1. -/
def recencyBoostOf (now : Nat) (m : MemoryUnit) : ℚ :=
  let ageMs := now - ageBase m
  if ageMs < DAY_MS then mkRat 3 2 else if ageMs < 7 * DAY_MS then mkRat 6 5 else 1

/-- Access boost of `rankResults`: `1 + accessCount * 0.1`. -/
def accessBoostOf (m : MemoryUnit) : ℚ := 1 + (m.accessCount : ℚ) * mkRat 1 10

/-- File-affinity boost: `currentFile && relatedFiles?.some(f =>
f.includes(currentFile) || currentFile.includes(f)) ? 1.5 : 1.0`.  The empty
string is falsy in JS, hence the `cf ≠ ""` guard. -/
def fileBoostOf (currentFile : Option String) (m : MemoryUnit) : ℚ :=
  match currentFile with
  | none => 1
  | some cf =>
      if decide (cf ≠ "") &&
         m.relatedFiles.any (fun f => strIncludes f cf || strIncludes cf f)
      then mkRat 3 2 else 1

/-- The per-entry boost applied by both loops of `rankResults`, in the source
multiplication order `score * boost * accessBoost * recencyBoost * fileBoost`. -/
def boostScore (now : Nat) (currentFile : Option String) (r : ScoredMemory) : ScoredMemory :=
  ⟨r.memory, r.score * typeBoost r.memory.type * accessBoostOf r.memory
      * recencyBoostOf now r.memory * fileBoostOf currentFile r.memory⟩

/-- The two dedup-merge loops of `rankResults` (FTS results first, vector
results second, one shared `seen` set), written as one fold over the
concatenation. -/
def mergeSeen (ftsResults vectorResults : List ScoredMemory) (now : Nat)
    (currentFile : Option String) : List ScoredMemory :=
  ((ftsResults ++ vectorResults).foldl
    (fun (acc : List String × List ScoredMemory) r =>
      if acc.1.contains r.memory.id then acc
      else (acc.1 ++ [r.memory.id], acc.2 ++ [boostScore now currentFile r]))
    ([], [])).2

/-- `rankResults`: merge with dedup and boosts, stable-sort by score descending,
truncate to `maxResults`. -/
def rankResults (ftsResults vectorResults : List ScoredMemory) (maxResults : Nat)
    (currentFile : Option String) (now : Nat) : List ScoredMemory :=
  let merged := mergeSeen ftsResults vectorResults now currentFile
  (List.insertionSort (fun a b => b.score ≤ a.score) merged).take maxResults

/-- `formatResults`: one block per result; the empty `action` / `reason` are
falsy in JS and suppressed. -/
def formatResults (ranked : List ScoredMemory) (queryText : String) : String :=
  let lines := ranked.foldl (fun acc r =>
    let l1 := acc ++ ["[" ++ r.memory.type.str ++ "] " ++ r.memory.intent]
    let l2 := if r.memory.action ≠ "" then l1 ++ ["  → " ++ r.memory.action] else l1
    match r.memory.reason with
    | some why => if why ≠ "" then l2 ++ ["  Why: " ++ why] else l2
    | none => l2) []
  if lines = [] then "No memories matching \"" ++ queryText ++ "\""
  else String.intercalate "\n" lines

/-! ### Vector search (src/db/memory-store.ts) -/

/-- Exact square root on `ℚ`: the rational square root when numerator and
denominator are perfect squares (which covers every magnitude arising in the
states considered below), and `0` otherwise.  It stands for the source
`Math.sqrt`, whose floating-point value agrees with it on perfect squares. -/
def qsqrt (q : ℚ) : ℚ :=
  if q.num < 0 then 0
  else
    let n := q.num.toNat
    let rn := (List.range (n + 1)).foldl (fun acc k => if k * k ≤ n then k else acc) 0
    let rd := (List.range (q.den + 1)).foldl (fun acc k => if k * k ≤ q.den then k else acc) 0
    if rn * rn = n ∧ rd * rd = q.den then mkRat rn rd else 0

/-- `cosineSimilarity`: `dot/(√magA·√magB)`, and `0` when the magnitude product
is `0`.  The source loop indexes both arrays by `i < a.length`; the vectors in
this development always have equal length, modelled by `zipWith`. -/
def cosineSimilarity (a b : List ℚ) : ℚ :=
  let dot := (List.zipWith (fun x y => x * y) a b).sum
  let magA := (a.map (fun x => x * x)).sum
  let magB := (b.map (fun x => x * x)).sum
  let mag := qsqrt magA * qsqrt magB
  if mag = 0 then 0 else dot / mag

/-- The scored candidate list of `searchVector` (one entry per vector in the
in-memory index, active or not). -/
def scoreVectors (s : Store) (q : List ℚ) : List (String × ℚ) :=
  s.vectors.map (fun p => (p.1, cosineSimilarity q p.2))

/-- `MemoryStore.searchVector`: score every indexed vector, sort by score
descending, truncate to `limit`, then resolve rows and keep only active ones
(`.filter(r => r.memory && r.memory.isActive)`). -/
def searchVector (s : Store) (q : List ℚ) (limit : Nat) : List ScoredMemory :=
  let results := scoreVectors s q
  let sorted := List.insertionSort (fun a b => b.2 ≤ a.2) results
  ((sorted.take limit).filterMap (fun r =>
    (getMem s r.1).map (fun m => (⟨m, r.2⟩ : ScoredMemory)))).filter
    (fun r => r.memory.isActive)

/-! ### Export / import (src/memory/export-import.ts) -/

/-- A `memories` entry of the export bundle. -/
structure ExportedMemory where
  id : String
  type : MemoryType
  intent : String
  action : String
  reason : Option String := none
  tags : List String := []
  relatedFiles : List String := []
  confidence : ℚ := 1
  importance : ℚ := mkRat 1 2
  accessCount : Nat := 0
  createdAt : Nat := 0
deriving DecidableEq, Repr

/-- A version-1 export bundle (the version check happens at the RPC handler). -/
structure ExportBundle where
  memories : List ExportedMemory
deriving DecidableEq, Repr

/-- The dedup key: the kind string and `intent.toLowerCase().trim()` joined
with a `::` separator. -/
def keyOfTI (ty : MemoryType) (intent : String) : String :=
  ty.str ++ "::" ++ trimStr (lowerStr intent)

def exportKeyOfMem (m : MemoryUnit) : String := keyOfTI m.type m.intent

def exportKeyOfExp (m : ExportedMemory) : String := keyOfTI m.type m.intent

/-- The key set `importMemories` starts from: the first 5000 active rows. -/
def activeKeys (s : Store) : List String := (getActive s 5000).map exportKeyOfMem

/-- Result record of `importMemories`. -/
structure ImportResult where
  store : Store
  imported : Nat
  skipped : Nat
  errors : Nat
deriving DecidableEq, Repr

/-- `importMemories`: skip bundle memories whose key is in the (growing) key
set, `add` the rest.  The source counts storage exceptions of individual `add`
calls in `errors` without raising; the pure model cannot raise, so `errors`
stays 0. -/
def importMemories (s : Store) (bundle : ExportBundle) (now : Nat) : ImportResult :=
  (bundle.memories.foldl (fun (p : ImportResult × List String) m =>
      let key := exportKeyOfExp m
      if p.2.contains key then
        ({ p.1 with skipped := p.1.skipped + 1 }, p.2)
      else
        let r := add p.1.store
          { type := m.type, intent := m.intent, action := m.action,
            reason := m.reason, tags := some m.tags,
            relatedFiles := some m.relatedFiles,
            confidence := some m.confidence, importance := some m.importance } now
        ({ p.1 with store := r.1, imported := p.1.imported + 1 }, p.2 ++ [key]))
    (⟨s, 0, 0, 0⟩, activeKeys s)).1

/-! ### Recall cache (src/memory/memory-cache.ts) -/

/-- A recall-cache entry: the cached result list and its store time. -/
structure CacheEntry where
  result : List ScoredMemory
  time : Nat
deriving DecidableEq, Repr

/-- The recall cache: a JS `Map`, i.e. an insertion-ordered association list. -/
abbrev Cache := List (String × CacheEntry)

/-- `getCached`: `null` on a miss; delete and miss when the entry is older than
`CACHE_TTL`; the hit case returns the entry untouched. -/
def getCached (cache : Cache) (key : String) (now : Nat) :
    Option (List ScoredMemory) × Cache :=
  match List.find? (fun e => decide (e.1 = key)) cache with
  | none => (none, cache)
  | some e =>
      if CACHE_TTL < now - e.2.time then
        (none, List.filter (fun e0 => !decide (e0.1 = key)) cache)
      else (some e.2.result, cache)

/-- `setCache`: evict the oldest (first) key when the cache is full, then set
the key (a JS `Map.set` keeps the position of an existing key). -/
def setCache (cache : Cache) (key : String) (result : List ScoredMemory)
    (now : Nat) : Cache :=
  let cache1 : Cache := if CACHE_MAX ≤ List.length cache then
      match cache with
      | [] => []
      | _ :: rest => rest
    else cache
  if List.any cache1 (fun e => e.1 = key) then
    List.map (fun e => if e.1 = key then (key, CacheEntry.mk result now) else e) cache1
  else cache1 ++ [(key, CacheEntry.mk result now)]

/-! ### Recall handler (src/server/mcp-handler.ts, `handleRecallMemory`) -/

/-- The handler-visible state: the memory store and the recall cache. -/
structure RecallState where
  store : Store
  cache : Cache

/-- Arguments of `recall_memory`. -/
structure RecallArgs where
  query : Option String := none
  maxResults : Option Nat := none
  currentFile : Option String := none
deriving DecidableEq, Repr

/-- A recall reply: the `isError` flag and text of the result frame, plus the
ranked list the text was formatted from (the items the caller receives). -/
structure RecallReply where
  isError : Bool
  text : String
  items : List ScoredMemory
deriving DecidableEq, Repr

/-- Abstraction of recall steps 1–3d of `handleRecallMemory` (query expansion,
FTS and vector search, hybrid ranking, attention re-ranking, 1-hop graph
enrichment, confidence decay).  The claims below concern the cache short-cut
and the reinforcement touch, which are independent of how this list is
produced, so the pipeline is a parameter of the embedding. -/
def RecallPipeline := Store → String → Nat → Option String → List ScoredMemory

/-- `handleRecallMemory`: answer from the cache when possible; otherwise run
the pipeline, truncate to `maxResults`, touch every returned row and run
opportunistic decay maintenance (only when at least one result), cache, and
reply with the formatted list. -/
def handleRecallMemory (pipeline : RecallPipeline) (st : RecallState)
    (args : RecallArgs) (now : Nat) : RecallState × RecallReply :=
  let queryText := args.query.getD ""
  let maxResults := min (args.maxResults.getD 10) 50
  let cacheKey := "recall:" ++ queryText ++ ":" ++ Nat.repr maxResults
  match getCached st.cache cacheKey now with
  | (some cached, cache1) =>
      (⟨st.store, cache1⟩, ⟨false, formatResults cached queryText, cached⟩)
  | (none, cache1) =>
      let ranked := (pipeline st.store queryText maxResults args.currentFile).take maxResults
      let store1 := if ranked.isEmpty then st.store
        else (runDecayMaintenance
          (ranked.foldl (fun s r => touch s r.memory.id now) st.store) now).1
      let cache2 := setCache cache1 cacheKey ranked now
      (⟨store1, cache2⟩, ⟨false, formatResults ranked queryText, ranked⟩)

/-! ### RPC frames, store handler, degraded mode
(src/server/mcp-handler.ts, src/mcp-stdio.ts) -/

/-- A JSON-RPC reply frame, with the request id threaded through verbatim and
therefore omitted: a `result` whose content is one text block and an optional
`isError: true`, a protocol-level `error` object, or no reply (notification). -/
inductive RpcReply
  | result (isError : Bool) (text : String)
  | errorObj (code : Int) (message : String)
  | noReply
deriving DecidableEq, Repr

/-- JS `s.slice(0, n)`. -/
def strTake (s : String) (n : Nat) : String := ⟨s.data.take n⟩

/-- The contradiction record returned by `findContradiction`. -/
structure Contradiction where
  existingId : String
  existingIntent : String
deriving DecidableEq, Repr

/-- Outcomes of the collaborator calls `handleStoreMemory` branches on:
`checkRateLimit` (src/security/rate-limiter.ts), `canStoreMemory`
(src/security/feature-gate.ts), and `storeWithQuality` / `findContradiction`
from `memory-quality.ts`, a module whose source is not in this tree.  The
handler only inspects their results, so they enter the embedding as
parameters; `quality = some (s, m)` is the store after a successful quality-
gated insert together with the stored row, `none` a quality rejection. -/
structure StoreOracles where
  rateAllowed : Bool := true
  rateReason : String := ""
  storeAllowed : Bool := true
  storeMessage : String := ""
  quality : Option (Store × MemoryUnit) := none
  contradiction : Option Contradiction := none

/-- `validTypes` lookup of `handleStoreMemory`. -/
def validType : String → Option MemoryType
  | "DECISION" => some .DECISION
  | "CORRECTION" => some .CORRECTION
  | "BUG_FIX" => some .BUG_FIX
  | "CONVENTION" => some .CONVENTION
  | "INSIGHT" => some .INSIGHT
  | "FAILED_SUGGESTION" => some .FAILED_SUGGESTION
  | "CONVERSATION" => some .CONVERSATION
  | "PROVEN_PATTERN" => some .PROVEN_PATTERN
  | _ => none

/-- The contradiction-resolution block of `handleStoreMemory`: on detection,
deactivate the older row with `superseded_by` = the new id, add a
`superseded_by` edge of weight 0.95 from the old row to the new one, and
produce the warning note appended to the response text. -/
def resolveContradiction (s : Store) (newMem : MemoryUnit)
    (contra : Option Contradiction) (now : Nat) : Store × String :=
  match contra with
  | none => (s, "")
  | some c =>
      let s1 := deactivate s c.existingId (some newMem.id)
      let s2 := addEdge s1 ⟨c.existingId, newMem.id, "superseded_by", mkRat 19 20, now⟩
      (s2, " [WARN] Superseded conflicting memory: \"" ++ strTake c.existingIntent 60 ++ "\"")

/-- The auto-edge block of `handleStoreMemory`: link the new row to the most
recent other row of the same kind (`related_to`, weight 0.5). -/
def autoEdge (s : Store) (newMem : MemoryUnit) (now : Nat) : Store :=
  match (getByType s newMem.type 5).find? (fun r => decide (r.id ≠ newMem.id)) with
  | some r => addEdge s ⟨newMem.id, r.id, "related_to", mkRat 1 2, now⟩
  | none => s

/-- Arguments of a tool call (the fields the modelled branches read). -/
structure ToolArgs where
  query : Option String := none
  content : Option String := none
  type : Option String := none
  reason : Option String := none
deriving DecidableEq, Repr

/-- `handleStoreMemory`: rate limit, required-field and kind validation,
feature gate, quality gate, then contradiction resolution, auto-edge and the
success response (session feed, background embedding and LLM enhancement have
no effect on store rows or reply frames and are omitted). -/
def handleStoreMemory (s : Store) (o : StoreOracles) (args : ToolArgs)
    (now : Nat) : Store × RpcReply :=
  if !o.rateAllowed then
    (s, .result true ("[WARN] Rate limited: " ++ o.rateReason))
  else if args.type.getD "" = "" ∨ args.content.getD "" = "" then
    (s, .result true "Error: \"type\" and \"content\" are required")
  else
    match validType (args.type.getD "") with
    | none => (s, .result true ("Error: Invalid type \"" ++ args.type.getD ""
        ++ "\". Use: DECISION, CORRECTION, BUG_FIX, CONVENTION, INSIGHT"))
    | some _memType =>
        if !o.storeAllowed then (s, .result true o.storeMessage)
        else
          match o.quality with
          | none => (s, .result true ("Memory rejected by quality check: \""
              ++ strTake (args.content.getD "") 100
              ++ "\" — too short, too generic, or duplicate"))
          | some (s1, memory) =>
              let r := resolveContradiction s1 memory o.contradiction now
              let s3 := autoEdge r.1 memory now
              (s3, .result false ("[OK] Created memory: " ++ memory.id
                ++ "\n(Active: " ++ Nat.repr (activeCount s3) ++ ")" ++ r.2))

/-- `handleHealthCheck` (abbreviated stats table; it always replies with a
plain result frame). -/
def handleHealthCheck (s : Store) : RpcReply :=
  .result false ("# Cortex Health Check\n| Active Memories | "
    ++ Nat.repr (activeCount s) ++ " |\n| Status | Healthy |")

/-- The tools of the modelled dispatch subset.  The remaining tools of the
adapter follow the same pattern as the two modelled ones: every branch of every
handler, error branches included, produces a result frame. -/
inductive ToolName
  | storeMemory
  | healthCheck
  | unknownTool (name : String)
deriving DecidableEq, Repr

/-- A JSON-RPC request after parsing (backward-compat method aliases dispatch
to the same handlers and are omitted). -/
inductive RpcRequest
  | init
  | notifInitialized
  | toolsList
  | resourcesList
  | resourcesRead (uri : String)
  | toolsCall (tool : ToolName) (args : ToolArgs)
  | unknownMethod (method : String)
deriving DecidableEq, Repr

/-- `handleMCPRequest` of the initialized adapter: protocol methods, the
`tools/call` input validation, tool dispatch, and the two protocol-error
cases (unknown resource `-32602`, unknown method `-32601`). -/
def handleMCPRequest (s : Store) (o : StoreOracles) (now : Nat) :
    RpcRequest → Store × RpcReply
  | .init => (s, .result false "protocolVersion 2024-11-05; serverInfo cortex 2.0.0")
  | .notifInitialized => (s, .noReply)
  | .toolsList => (s, .result false "tool list")
  | .resourcesList => (s, .result false "resource list")
  | .resourcesRead uri =>
      if uri = "memory://brain/context" then (s, .result false "brain context")
      else (s, .errorObj (-32602) ("Unknown resource: " ++ uri))
  | .toolsCall tool args =>
      if 1000 < (args.query.getD "").length then
        (s, .result true "Error: query too long (max 1000 chars)")
      else if 5000 < (args.content.getD "").length then
        (s, .result true "Error: content too long (max 5000 chars)")
      else
        match tool with
        | .storeMemory => handleStoreMemory s o args now
        | .healthCheck => (s, handleHealthCheck s)
        | .unknownTool name => (s, .result true ("Unknown tool: " ++ name))
  | .unknownMethod m => (s, .errorObj (-32601) ("Method not found: " ++ m))

/-- The degraded-mode fallback `mcp-stdio.ts` installs when database
initialization throws: the line loop keeps reading requests, and this handler
answers every request — tool calls included — with a JSON-RPC error object of
code `-32603`. -/
def degradedHandler (errMessage : String) (_rpc : RpcRequest) : RpcReply :=
  .errorObj (-32603) ("Server Init Failed: " ++ errMessage)

/-! ## Supporting lemmas -/

theorem deactivate_memories (s : Store) (i : String) (sup : Option String) :
    (deactivate s i sup).memories = s.memories.map (fun m =>
      if m.id = i then { m with isActive := false, supersededBy := sup } else m) := rfl

theorem deactivate_twice_map (l : List MemoryUnit) (i : String) (sup : Option String) :
    (l.map (fun m => if m.id = i then { m with isActive := false, supersededBy := sup } else m)).map
      (fun m => if m.id = i then { m with isActive := false, supersededBy := sup } else m)
    = l.map (fun m => if m.id = i then { m with isActive := false, supersededBy := sup } else m) := by
  rw [List.map_map]
  refine List.map_congr_left (fun m _ => ?_)
  by_cases h : m.id = i
  · simp [Function.comp, h]
  · simp [Function.comp, h]

theorem filter_id_inactive_after_deactivate (l : List MemoryUnit) (i : String)
    (sup : Option String) :
    ((l.map (fun m => if m.id = i then { m with isActive := false, supersededBy := sup } else m)).filter
      (fun m => decide (m.id = i) && !m.isActive)).length
    = (l.filter (fun m => decide (m.id = i))).length := by
  induction l with
  | nil => rfl
  | cons m l ih =>
      by_cases h : m.id = i
      · simp only [List.map_cons, List.filter_cons, h, if_pos]
        simp [h, ih]
      · simp only [List.map_cons, List.filter_cons, if_neg h]
        simp [h, ih]

theorem no_id_map_deactivate_eq (l : List MemoryUnit) (i : String) (sup : Option String)
    (h : ∀ m ∈ l, m.id ≠ i) :
    l.map (fun m => if m.id = i then { m with isActive := false, supersededBy := sup } else m) = l := by
  conv_rhs => rw [← List.map_id l]
  refine List.map_congr_left (fun m hm => ?_)
  simp [h m hm]

theorem active_length_after_deactivate (l : List MemoryUnit) (i : String) (sup : Option String)
    (h1 : (l.filter (fun m => decide (m.id = i))).length ≤ 1) :
    (l.filter (fun m => m.isActive)).length ≤
      ((l.map (fun m => if m.id = i then { m with isActive := false, supersededBy := sup } else m)).filter
        (fun m => m.isActive)).length + 1 := by
  induction l with
  | nil => simp
  | cons m l ih =>
      by_cases h : m.id = i
      · have hpm : (fun x : MemoryUnit => decide (x.id = i)) m = true := by simp [h]
        have htail : (l.filter (fun x => decide (x.id = i))).length = 0 := by
          have h2 := h1
          rw [List.filter_cons] at h2
          rw [if_pos (by simp [h])] at h2
          simp only [List.length_cons] at h2
          omega
        have hnone : ∀ x ∈ l, x.id ≠ i := by
          intro x hx hxi
          have : x ∈ l.filter (fun m => decide (m.id = i)) := by
            simp [List.mem_filter, hx, hxi]
          rw [List.length_eq_zero] at htail
          simp [htail] at this
        rw [List.map_cons, no_id_map_deactivate_eq l i sup hnone]
        by_cases ha : m.isActive
        · simp [List.filter_cons, h, ha]
        · simp [List.filter_cons, h, ha]
      · have h1t : (l.filter (fun m => decide (m.id = i))).length ≤ 1 := by
          have := h1
          simp only [List.filter_cons, h] at this
          simpa using this
        have := ih h1t
        by_cases ha : m.isActive
        · simp only [List.map_cons, List.filter_cons, if_neg h, ha]
          simpa using this
        · simp only [List.map_cons, List.filter_cons, if_neg h, ha]
          simpa using this

/-! ## Claim theorems -/

/-- **C8.**  `deactivate` is idempotent: for an id held by exactly one stored
record, a second `deactivate(id)` is a no-op — the resulting store (each
record, `superseded_by` included) is unchanged by the second call, exactly one
inactive record for the id exists afterwards, and the active count decreases by
at most 1 across the pair of calls. -/
theorem C8_deactivate_idempotent (s : Store) (i : String)
    (h1 : (s.memories.filter (fun m => decide (m.id = i))).length = 1) :
    deactivate (deactivate s i none) i none = deactivate s i none ∧
    ((deactivate (deactivate s i none) i none).memories.filter
      (fun m => decide (m.id = i) && !m.isActive)).length = 1 ∧
    activeCount s ≤ activeCount (deactivate (deactivate s i none) i none) + 1 := by
  have hidem : deactivate (deactivate s i none) i none = deactivate s i none := by
    show ({ deactivate s i none with memories := _ } : Store) = _
    simp only [deactivate_memories]
    rw [deactivate_twice_map]
    rfl
  refine ⟨hidem, ?_, ?_⟩
  · rw [hidem]
    simp only [deactivate_memories]
    rw [filter_id_inactive_after_deactivate]
    exact h1
  · rw [hidem]
    simp only [activeCount, deactivate_memories]
    exact active_length_after_deactivate s.memories i none (le_of_eq h1)

/-- Witness for C8 at a concrete one-row store. -/
theorem C8_witness :
    ((Store.mk [{ id := "a", type := .INSIGHT, intent := "x", action := "y" }] [] [] 0).memories.filter
      (fun m => decide (m.id = "a"))).length = 1 ∧
    (deactivate (deactivate (Store.mk [{ id := "a", type := .INSIGHT, intent := "x", action := "y" }] [] [] 0) "a" none) "a" none
      = deactivate (Store.mk [{ id := "a", type := .INSIGHT, intent := "x", action := "y" }] [] [] 0) "a" none ∧
    ((deactivate (deactivate (Store.mk [{ id := "a", type := .INSIGHT, intent := "x", action := "y" }] [] [] 0) "a" none) "a" none).memories.filter
      (fun m => decide (m.id = "a") && !m.isActive)).length = 1 ∧
    activeCount (Store.mk [{ id := "a", type := .INSIGHT, intent := "x", action := "y" }] [] [] 0)
      ≤ activeCount (deactivate (deactivate (Store.mk [{ id := "a", type := .INSIGHT, intent := "x", action := "y" }] [] [] 0) "a" none) "a" none) + 1) :=
  ⟨by decide, C8_deactivate_idempotent (Store.mk [{ id := "a", type := .INSIGHT, intent := "x", action := "y" }] [] [] 0) "a" (by decide)⟩

theorem deactivate_sets (s : Store) (i : String) (sup : Option String) :
    ∀ m ∈ (deactivate s i sup).memories, m.id = i →
      m.isActive = false ∧ m.supersededBy = sup := by
  intro m hm hid
  rw [deactivate_memories] at hm
  obtain ⟨a, ha, rfl⟩ := List.mem_map.mp hm
  by_cases h : a.id = i
  · simp [h]
  · simp only [if_neg h] at hid ⊢
    exact absurd hid h

theorem addEdge_memories (s : Store) (e : GraphEdge) :
    (addEdge s e).memories = s.memories := rfl

theorem autoEdge_memories (s : Store) (m : MemoryUnit) (now : Nat) :
    (autoEdge s m now).memories = s.memories := by
  unfold autoEdge
  cases (getByType s m.type 5).find? (fun r => decide (r.id ≠ m.id)) <;> rfl

theorem self_mem_addEdge (s : Store) (e : GraphEdge) : e ∈ (addEdge s e).edges := by
  simp [addEdge]

theorem mem_addEdge_of_ne_rel (s : Store) (e0 e : GraphEdge) (h : e0 ∈ s.edges)
    (hne : ¬ e0.relation = e.relation) : e0 ∈ (addEdge s e).edges := by
  simp [addEdge, List.mem_filter, h, hne]

theorem mem_autoEdge_of_ne_rel (s : Store) (m : MemoryUnit) (now : Nat) (e0 : GraphEdge)
    (h : e0 ∈ s.edges) (hne : e0.relation ≠ "related_to") :
    e0 ∈ (autoEdge s m now).edges := by
  unfold autoEdge
  cases hfind : (getByType s m.type 5).find? (fun r => decide (r.id ≠ m.id)) with
  | none => simpa using h
  | some r => exact mem_addEdge_of_ne_rel _ _ _ h (by simpa using hne)

/-- **C3.**  On a `store_memory` call that passes the gates and on which a
contradiction with an existing active item is detected, the handler
deactivates the older item with `superseded_by` set to the new item's id, adds
a `superseded_by` edge from the old item to the new item, and the response is a
result frame whose text contains the "Superseded conflicting memory" note. -/
theorem C3_contradiction_supersedes (s s1 : Store) (o : StoreOracles)
    (args : ToolArgs) (now : Nat) (memory : MemoryUnit) (c : Contradiction)
    (hrate : o.rateAllowed = true) (hstore : o.storeAllowed = true)
    (htype : args.type = some "CORRECTION")
    (hcontent : ¬ args.content.getD "" = "")
    (hq : o.quality = some (s1, memory)) (hc : o.contradiction = some c) :
    (∀ m ∈ (handleStoreMemory s o args now).1.memories, m.id = c.existingId →
        m.isActive = false ∧ m.supersededBy = some memory.id) ∧
    GraphEdge.mk c.existingId memory.id "superseded_by" (mkRat 19 20) now
      ∈ (handleStoreMemory s o args now).1.edges ∧
    ∃ t, (handleStoreMemory s o args now).2 = .result false t ∧
      strIncludes t "Superseded conflicting memory" = true := by
  have hrun : handleStoreMemory s o args now =
      (autoEdge (addEdge (deactivate s1 c.existingId (some memory.id))
          (GraphEdge.mk c.existingId memory.id "superseded_by" (mkRat 19 20) now)) memory now,
        .result false ("[OK] Created memory: " ++ memory.id ++ "\n(Active: "
          ++ Nat.repr (activeCount (autoEdge (addEdge (deactivate s1 c.existingId (some memory.id))
              (GraphEdge.mk c.existingId memory.id "superseded_by" (mkRat 19 20) now)) memory now))
          ++ ")" ++ (" [WARN] Superseded conflicting memory: \""
          ++ strTake c.existingIntent 60 ++ "\""))) := by
    unfold handleStoreMemory
    rw [hrate, htype, hq, hc]
    simp [hcontent, validType, resolveContradiction, hstore]
  refine ⟨?_, ?_, ?_⟩
  · rw [hrun]
    intro m hm hid
    rw [autoEdge_memories, addEdge_memories] at hm
    exact deactivate_sets _ _ _ m hm hid
  · rw [hrun]
    exact mem_autoEdge_of_ne_rel _ _ _ _ (self_mem_addEdge _ _)
      (show ("superseded_by" : String) ≠ "related_to" by decide)
  · rw [hrun]
    refine ⟨_, rfl, ?_⟩
    simp only [strIncludes, decide_eq_true_eq]
    have h1 : ("Superseded conflicting memory").data
        <:+: (" [WARN] Superseded conflicting memory: \"").data := by
      refine ⟨(" [WARN] ").data, (": \"").data, by decide⟩
    have h2 : (" [WARN] Superseded conflicting memory: \"").data
        <:+: (" [WARN] Superseded conflicting memory: \""
          ++ strTake c.existingIntent 60 ++ "\"").data := by
      rw [String.append_assoc, String.data_append]
      exact (List.prefix_append _ _).isInfix
    have h3 : (" [WARN] Superseded conflicting memory: \""
          ++ strTake c.existingIntent 60 ++ "\"").data
        <:+: ("[OK] Created memory: " ++ memory.id ++ "\n(Active: "
          ++ Nat.repr (activeCount (autoEdge (addEdge (deactivate s1 c.existingId (some memory.id))
              (GraphEdge.mk c.existingId memory.id "superseded_by" (mkRat 19 20) now)) memory now))
          ++ ")" ++ (" [WARN] Superseded conflicting memory: \""
          ++ strTake c.existingIntent 60 ++ "\"")).data := by
      rw [String.data_append]
      exact (List.suffix_append _ _).isInfix
    exact (h1.trans h2).trans h3

/-- Witness for C3 at concrete inputs. -/
theorem C3_witness :
    (StoreOracles.mk true "" true "" (some (Store.mk
        [{ id := "old-1", type := .CORRECTION, intent := "always use X", action := "a" },
         { id := "new-1", type := .CORRECTION, intent := "never use X", action := "a" }] [] [] 0,
      { id := "new-1", type := .CORRECTION, intent := "never use X", action := "a" }))
      (some ⟨"old-1", "always use X"⟩)).rateAllowed = true ∧
    (∀ m ∈ (handleStoreMemory (Store.mk [] [] [] 0)
        (StoreOracles.mk true "" true "" (some (Store.mk
          [{ id := "old-1", type := .CORRECTION, intent := "always use X", action := "a" },
           { id := "new-1", type := .CORRECTION, intent := "never use X", action := "a" }] [] [] 0,
        { id := "new-1", type := .CORRECTION, intent := "never use X", action := "a" }))
        (some ⟨"old-1", "always use X"⟩))
        (ToolArgs.mk none (some "never use X") (some "CORRECTION") none) 777).1.memories,
      m.id = "old-1" → m.isActive = false ∧ m.supersededBy = some "new-1") ∧
    GraphEdge.mk "old-1" "new-1" "superseded_by" (mkRat 19 20) 777
      ∈ (handleStoreMemory (Store.mk [] [] [] 0)
        (StoreOracles.mk true "" true "" (some (Store.mk
          [{ id := "old-1", type := .CORRECTION, intent := "always use X", action := "a" },
           { id := "new-1", type := .CORRECTION, intent := "never use X", action := "a" }] [] [] 0,
        { id := "new-1", type := .CORRECTION, intent := "never use X", action := "a" }))
        (some ⟨"old-1", "always use X"⟩))
        (ToolArgs.mk none (some "never use X") (some "CORRECTION") none) 777).1.edges := by
  refine ⟨rfl, ?_⟩
  have h := C3_contradiction_supersedes (Store.mk [] [] [] 0)
    (Store.mk
      [{ id := "old-1", type := .CORRECTION, intent := "always use X", action := "a" },
       { id := "new-1", type := .CORRECTION, intent := "never use X", action := "a" }] [] [] 0)
    (StoreOracles.mk true "" true "" (some (Store.mk
      [{ id := "old-1", type := .CORRECTION, intent := "always use X", action := "a" },
       { id := "new-1", type := .CORRECTION, intent := "never use X", action := "a" }] [] [] 0,
      { id := "new-1", type := .CORRECTION, intent := "never use X", action := "a" }))
      (some ⟨"old-1", "always use X"⟩))
    (ToolArgs.mk none (some "never use X") (some "CORRECTION") none) 777
    { id := "new-1", type := .CORRECTION, intent := "never use X", action := "a" }
    ⟨"old-1", "always use X"⟩ rfl rfl rfl (by decide) rfl rfl
  exact ⟨h.1, h.2.1⟩

/-! ## Fold and store-shape infrastructure -/

theorem foldl_preserves_mem {β γ : Type _} (P : β → Prop) (step : β → γ → β)
    (L : List γ) (h : ∀ b a, a ∈ L → P b → P (step b a)) :
    ∀ b, P b → P (L.foldl step b) := by
  induction L with
  | nil => intro b hb; exact hb
  | cons a L ih =>
      intro b hb
      exact ih (fun b0 a0 ha0 => h b0 a0 (List.mem_cons_of_mem _ ha0))
        (step b a) (h b a (List.mem_cons_self _ _) hb)

/-- All records carrying an id are inactive. -/
def InactiveId (s : Store) (i : String) : Prop :=
  ∀ m ∈ s.memories, m.id = i → m.isActive = false

theorem inactiveId_deactivate_self (s : Store) (i : String) (sup : Option String) :
    InactiveId (deactivate s i sup) i :=
  fun m hm hid => (deactivate_sets s i sup m hm hid).1

theorem inactiveId_deactivate (s : Store) (i j : String) (sup : Option String)
    (h : InactiveId s i) : InactiveId (deactivate s j sup) i := by
  intro m hm hid
  rw [deactivate_memories] at hm
  obtain ⟨a, ha, rfl⟩ := List.mem_map.mp hm
  by_cases hj : a.id = j
  · simp [hj]
  · simp only [if_neg hj] at hid ⊢
    exact h a ha hid

theorem applyUpdate_id (ex : MemoryUnit) (u : UpdateArgs) :
    (applyUpdate ex u).id = ex.id := rfl

theorem applyUpdate_isActive (ex : MemoryUnit) (u : UpdateArgs) :
    (applyUpdate ex u).isActive = ex.isActive := rfl

theorem inactiveId_update (s : Store) (i j : String) (u : UpdateArgs)
    (h : InactiveId s i) : InactiveId (update s j u) i := by
  intro m hm hid
  unfold update at hm
  cases hfind : getMem s j with
  | none => rw [hfind] at hm; exact h m hm hid
  | some ex =>
      rw [hfind] at hm
      obtain ⟨a, ha, rfl⟩ := List.mem_map.mp hm
      by_cases hj : a.id = j
      · rw [if_pos hj] at hid ⊢
        rw [applyUpdate_isActive]
        have hexmem : ex ∈ s.memories := List.mem_of_find?_eq_some hfind
        exact h ex hexmem ((applyUpdate_id ex u) ▸ hid)
      · rw [if_neg hj] at hid ⊢
        exact h a ha hid

theorem inactiveId_mergeDupGroup (st : Store) (g : List MemoryUnit) (i : String)
    (h : InactiveId st i) : InactiveId (mergeDupGroup st g) i := by
  simp only [mergeDupGroup]
  by_cases hlen : g.length ≤ 1
  · rwa [if_pos hlen]
  · rw [if_neg hlen]
    cases List.insertionSort (fun a b => b.importance ≤ a.importance) g with
    | nil => exact h
    | cons keeper rest =>
        exact foldl_preserves_mem (fun t => InactiveId t i) _ _
          (fun t a _ ht => inactiveId_deactivate _ _ _ _ ht) _
          (inactiveId_update _ _ _ _ h)

/-- The conditional-deactivation folds of `cleanupMemories` preserve inactivity
of an id. -/
theorem inactiveId_deactFold (s : Store) (i : String)
    (L : List MemoryUnit) (C : MemoryUnit → Prop) [DecidablePred C]
    (h : InactiveId s i) :
    InactiveId (L.foldl (fun st m => if C m then deactivate st m.id none else st) s) i := by
  refine foldl_preserves_mem (fun t => InactiveId t i) _ _ (fun t a _ ht => ?_) _ h
  by_cases hc : C a
  · rw [if_pos hc]; exact inactiveId_deactivate _ _ _ _ ht
  · rw [if_neg hc]; exact ht

/-- A conditional-deactivation fold makes every qualifying listed id inactive. -/
theorem inactiveId_of_mem_deactFold (s : Store) (L : List MemoryUnit)
    (C : MemoryUnit → Prop) [DecidablePred C] (mm : MemoryUnit)
    (hmem : mm ∈ L) (hc : C mm) :
    InactiveId (L.foldl (fun st m => if C m then deactivate st m.id none else st) s) mm.id := by
  induction L generalizing s with
  | nil => cases hmem
  | cons hd tl ih =>
      rcases List.mem_cons.mp hmem with rfl | htl
      · show InactiveId (tl.foldl _ (if C mm then deactivate s mm.id none else s)) mm.id
        rw [if_pos hc]
        exact inactiveId_deactFold _ _ _ _ (inactiveId_deactivate_self s mm.id none)
      · exact ih _ htl

/-- A pointwise record transformation that keeps the dedup-relevant core fields
and never reactivates a record. -/
def Coreish (f : MemoryUnit → MemoryUnit) : Prop :=
  ∀ x, (f x).id = x.id ∧ (f x).type = x.type ∧ (f x).accessCount = x.accessCount ∧
    (f x).createdAt = x.createdAt ∧ ((f x).isActive = true → x.isActive = true)

theorem coreish_id : Coreish id := by
  intro x; exact ⟨rfl, rfl, rfl, rfl, fun h => h⟩

theorem coreish_comp {f g : MemoryUnit → MemoryUnit} (hf : Coreish f) (hg : Coreish g) :
    Coreish (g ∘ f) := by
  intro x
  obtain ⟨h1, h2, h3, h4, h5⟩ := hf x
  obtain ⟨g1, g2, g3, g4, g5⟩ := hg (f x)
  exact ⟨g1.trans h1, g2.trans h2, g3.trans h3, g4.trans h4, fun h => h5 (g5 h)⟩

theorem coreish_deactFun (i : String) (sup : Option String) :
    Coreish (fun m => if m.id = i then { m with isActive := false, supersededBy := sup } else m) := by
  intro x
  by_cases h : x.id = i
  · refine ⟨?_, ?_, ?_, ?_, ?_⟩ <;> simp [h]
  · refine ⟨?_, ?_, ?_, ?_, ?_⟩ <;> simp [h]

/-- A conditional-deactivation fold is a core-preserving pointwise map. -/
theorem deactFold_memories (L : List MemoryUnit) (C : MemoryUnit → Prop)
    [DecidablePred C] :
    ∀ s : Store, ∃ f, Coreish f ∧
      (L.foldl (fun st m => if C m then deactivate st m.id none else st) s).memories
        = s.memories.map f := by
  induction L with
  | nil => exact fun s => ⟨id, coreish_id, (List.map_id _).symm⟩
  | cons hd tl ih =>
      intro s
      by_cases hc : C hd
      · obtain ⟨f, hf, hmem⟩ := ih (deactivate s hd.id none)
        refine ⟨f ∘ (fun m => if m.id = hd.id then
          { m with isActive := false, supersededBy := none } else m),
          coreish_comp (coreish_deactFun _ _) hf, ?_⟩
        show (tl.foldl _ (if C hd then deactivate s hd.id none else s)).memories = _
        rw [if_pos hc, hmem, deactivate_memories, List.map_map]
      · obtain ⟨f, hf, hmem⟩ := ih s
        refine ⟨f, hf, ?_⟩
        show (tl.foldl _ (if C hd then deactivate s hd.id none else s)).memories = _
        rw [if_neg hc, hmem]

/-! ### Membership in the limited, sorted reads -/

theorem mem_of_mem_getActive (s : Store) (n : Nat) :
    ∀ m ∈ getActive s n, m ∈ s.memories ∧ m.isActive = true := by
  intro m hm
  have h1 : m ∈ sortByTimestampDesc (s.memories.filter (fun m => m.isActive)) :=
    (List.take_sublist _ _).mem hm
  have h2 : m ∈ s.memories.filter (fun m => m.isActive) := by
    unfold sortByTimestampDesc at h1
    exact (List.mem_insertionSort _).mp h1
  have := List.mem_filter.mp h2
  exact ⟨this.1, this.2⟩

theorem mem_getActive_of (s : Store) (n : Nat) (hn : s.memories.length ≤ n)
    (m : MemoryUnit) (hm : m ∈ s.memories) (ha : m.isActive = true) :
    m ∈ getActive s n := by
  have hmf : m ∈ s.memories.filter (fun m => m.isActive) :=
    List.mem_filter.mpr ⟨hm, ha⟩
  have hlen : (sortByTimestampDesc (s.memories.filter (fun m => m.isActive))).length ≤ n := by
    unfold sortByTimestampDesc
    rw [List.length_insertionSort]
    exact le_trans (List.length_filter_le _ _) hn
  unfold getActive
  rw [List.take_of_length_le hlen]
  unfold sortByTimestampDesc
  exact (List.mem_insertionSort _).mpr hmf

theorem mem_of_mem_getByType (s : Store) (ty : MemoryType) (n : Nat) :
    ∀ m ∈ getByType s ty n, m ∈ s.memories ∧ m.type = ty ∧ m.isActive = true := by
  intro m hm
  have h1 : m ∈ sortByTimestampDesc (s.memories.filter
      (fun m => decide (m.type = ty) && m.isActive)) :=
    (List.take_sublist _ _).mem hm
  have h2 : m ∈ s.memories.filter (fun m => decide (m.type = ty) && m.isActive) := by
    unfold sortByTimestampDesc at h1
    exact (List.mem_insertionSort _).mp h1
  have := List.mem_filter.mp h2
  refine ⟨this.1, ?_, ?_⟩
  · have := this.2; simp at this; exact this.1
  · have := this.2; simp at this; exact this.2

theorem mem_getByType_of (s : Store) (ty : MemoryType) (n : Nat)
    (hn : s.memories.length ≤ n) (m : MemoryUnit) (hm : m ∈ s.memories)
    (hty : m.type = ty) (ha : m.isActive = true) :
    m ∈ getByType s ty n := by
  have hmf : m ∈ s.memories.filter (fun m => decide (m.type = ty) && m.isActive) :=
    List.mem_filter.mpr ⟨hm, by simp [hty, ha]⟩
  have hlen : (sortByTimestampDesc (s.memories.filter
      (fun m => decide (m.type = ty) && m.isActive))).length ≤ n := by
    unfold sortByTimestampDesc
    rw [List.length_insertionSort]
    exact le_trans (List.length_filter_le _ _) hn
  unfold getByType
  rw [List.take_of_length_le hlen]
  unfold sortByTimestampDesc
  exact (List.mem_insertionSort _).mpr hmf

/-! ### Cleanup-pass lemmas (C4) -/

theorem inactiveId_cleanupStep2 (t : Store) (now : Nat) (i : String)
    (h : InactiveId t i) : InactiveId (cleanupStep2 t now) i :=
  inactiveId_deactFold t i _ _ h

theorem inactiveId_cleanupStep3 (t : Store) (i : String)
    (h : InactiveId t i) : InactiveId (cleanupStep3 t) i := by
  unfold cleanupStep3
  by_cases hc : MEMORY_CAP < (getActive t 5000).length
  · rw [if_pos hc]
    exact foldl_preserves_mem (fun st => InactiveId st i) _ _
      (fun st a _ hst => inactiveId_deactivate _ _ _ _ hst) _ h
  · rwa [if_neg hc]

theorem inactiveId_cleanupStep4 (t : Store) (i : String)
    (h : InactiveId t i) : InactiveId (cleanupStep4 t) i :=
  foldl_preserves_mem (fun st => InactiveId st i) _ _
    (fun _ _ _ hst => inactiveId_mergeDupGroup _ _ _ hst) _ h

theorem inactiveId_cleanup_tail (t : Store) (now : Nat) (i : String)
    (h : InactiveId t i) :
    InactiveId (cleanupStep4 (cleanupStep3 (cleanupStep2 t now))) i :=
  inactiveId_cleanupStep4 _ _ (inactiveId_cleanupStep3 _ _ (inactiveId_cleanupStep2 _ _ _ h))

theorem cleanupStep1_memories (s : Store) (now : Nat) :
    ∃ f, Coreish f ∧ (cleanupStep1 s now).memories = s.memories.map f :=
  deactFold_memories _ _ s

/-- **C4 (amended).**  In every cleanup pass over a store with at most 5000
rows and unique ids: every active INSIGHT item with `access_count = 0` that is
strictly more than 30 days old (`INSIGHT_MAX_AGE_DAYS`, not 14) ends the pass
inactive, and every active item of any kind with `access_count = 0` strictly
more than 60 days old (`UNUSED_MAX_AGE_DAYS`, not 30) ends the pass inactive. -/
theorem C4_cleanup_deactivates_aged (s : Store) (now : Nat)
    (hlen : s.memories.length ≤ 5000)
    (hids : (s.memories.map (fun m => m.id)).Nodup)
    (m : MemoryUnit) (hm : m ∈ s.memories) (hac : m.accessCount = 0)
    (hactive : m.isActive = true)
    (hcase : (m.type = .INSIGHT ∧ INSIGHT_MAX_AGE_DAYS * DAY_MS < now - m.createdAt)
      ∨ UNUSED_MAX_AGE_DAYS * DAY_MS < now - m.createdAt) :
    InactiveId (cleanupMemories s now) m.id := by
  unfold cleanupMemories
  rcases hcase with ⟨hins, hage⟩ | hage
  · -- deactivated by step 1
    have hmem1 : m ∈ getByType s .INSIGHT 5000 :=
      mem_getByType_of s .INSIGHT 5000 hlen m hm hins hactive
    have h1 : InactiveId (cleanupStep1 s now) m.id :=
      inactiveId_of_mem_deactFold s _ _ m hmem1 ⟨hac, hage⟩
    exact inactiveId_cleanup_tail _ now _ h1
  · -- deactivated by step 2 at the latest
    obtain ⟨f, hf, hmem1⟩ := cleanupStep1_memories s now
    by_cases hact1 : (f m).isActive = true
    · have hfm : f m ∈ (cleanupStep1 s now).memories := by
        rw [hmem1]; exact List.mem_map_of_mem f hm
      have hlen1 : (cleanupStep1 s now).memories.length ≤ 5000 := by
        rw [hmem1, List.length_map]; exact hlen
      have hmemA : f m ∈ getActive (cleanupStep1 s now) 5000 :=
        mem_getActive_of _ _ hlen1 _ hfm hact1
      have h2 : InactiveId (cleanupStep2 (cleanupStep1 s now) now) (f m).id := by
        refine inactiveId_of_mem_deactFold _ _ _ _ hmemA ⟨?_, ?_⟩
        · rw [(hf m).2.2.1]; exact hac
        · rw [(hf m).2.2.2.1]; exact hage
      rw [(hf m).1] at h2
      exact inactiveId_cleanupStep4 _ _ (inactiveId_cleanupStep3 _ _ h2)
    · -- the unique record with this id is already inactive after step 1
      have h1 : InactiveId (cleanupStep1 s now) m.id := by
        intro m1 hm1 hid
        rw [hmem1] at hm1
        obtain ⟨y, hy, rfl⟩ := List.mem_map.mp hm1
        have hyid : y.id = m.id := by rw [← (hf y).1]; exact hid
        have hym : y = m := List.inj_on_of_nodup_map hids hy hm hyid
        rw [hym]
        exact Bool.not_eq_true _ |>.mp hact1
      exact inactiveId_cleanup_tail _ now _ h1

/-- C4 counterexample: an active INSIGHT item 20 days old with
`access_count = 0` — at least 14 days old, which the claim says every cleanup
pass deactivates — survives `cleanupMemories` active, because the code
threshold is `INSIGHT_MAX_AGE_DAYS = 30` days (strict). -/
theorem C4_counterexample :
    ∃ m ∈ (cleanupMemories
        (Store.mk [{ id := "i1", type := .INSIGHT, intent := "zzz", action := "a" }] [] [] 0)
        (20 * DAY_MS)).memories,
      m.id = "i1" ∧ m.isActive = true ∧ m.accessCount = 0 ∧ m.type = .INSIGHT ∧
      14 * DAY_MS ≤ 20 * DAY_MS - m.createdAt := by decide

/-- Witness for the amended C4 at a concrete 61-day-old item. -/
theorem C4_witness :
    ((Store.mk [{ id := "w", type := .DECISION, intent := "zzz", action := "a" }] [] [] 0).memories.length ≤ 5000 ∧
      UNUSED_MAX_AGE_DAYS * DAY_MS < 61 * DAY_MS -
        ({ id := "w", type := .DECISION, intent := "zzz", action := "a" } : MemoryUnit).createdAt) ∧
    InactiveId (cleanupMemories
      (Store.mk [{ id := "w", type := .DECISION, intent := "zzz", action := "a" }] [] [] 0)
      (61 * DAY_MS)) "w" :=
  ⟨⟨by decide, by decide⟩,
    C4_cleanup_deactivates_aged
      (Store.mk [{ id := "w", type := .DECISION, intent := "zzz", action := "a" }] [] [] 0)
      (61 * DAY_MS) (by decide) (by decide)
      { id := "w", type := .DECISION, intent := "zzz", action := "a" }
      (by decide) (by decide) (by decide) (Or.inr (by decide))⟩

/-! ### Decay lemmas (C5) -/

theorem DECAY_RATE_eq : DECAY_RATE = 2 / 100 := by
  simp [DECAY_RATE, Rat.mkRat_eq_div]

theorem ACCESS_BOOST_RATE_eq : ACCESS_BOOST_RATE = 1 / 10 := by
  simp [ACCESS_BOOST_RATE, Rat.mkRat_eq_div]

theorem MIN_IMPORTANCE_eq : MIN_IMPORTANCE = 1 / 10 := by
  simp [MIN_IMPORTANCE, Rat.mkRat_eq_div]

theorem mkRat_13_10_eq : (mkRat 13 10 : ℚ) = 13 / 10 := by
  rw [Rat.mkRat_eq_div]; norm_num

theorem mkRat_11_10_eq : (mkRat 11 10 : ℚ) = 11 / 10 := by
  rw [Rat.mkRat_eq_div]; norm_num

theorem mkRat_3_2_eq : (mkRat 3 2 : ℚ) = 3 / 2 := by
  rw [Rat.mkRat_eq_div]; norm_num

theorem mkRat_6_5_eq : (mkRat 6 5 : ℚ) = 6 / 5 := by
  rw [Rat.mkRat_eq_div]; norm_num

theorem applyUpdate_imp_twice (m : MemoryUnit) (v w : ℚ) :
    applyUpdate (applyUpdate m { importance := some v }) { importance := some w }
      = applyUpdate m { importance := some w } := rfl

/-- **C5.**  Effective importance equals the spec formula
`clamp₍₀.₁,₁₎ (base × 1/(1+age_days×0.02) × min(2, 1+0.1×access) × recency)`
with recency 1.3 within a day of last access, 1.1 within a week, else 1.0 (for
any present-day clock, i.e. `now` at least 7 days past the epoch); and the
maintenance pass leaves every record either unchanged or overwritten with its
recomputed importance, the latter only when `|new − current| > 0.05`. -/
theorem C5_effectiveImportance_spec (base : ℚ) (ts ac : Nat) (la : Option Nat)
    (now : Nat) (s : Store) (hnow : 7 * DAY_MS ≤ now)
    (hids : (s.memories.map (fun m => m.id)).Nodup) :
    effectiveImportance base ts ac la now = specEffectiveImportance base ts ac la now ∧
    (∀ m1 ∈ (runDecayMaintenance s now).1.memories,
      m1 ∈ s.memories ∨ ∃ m0, m0 ∈ s.memories ∧ m1.id = m0.id ∧
        mkRat 5 100 < |m0.importance - effImp m0 now| ∧
        m1 = applyUpdate m0 { importance := some (effImp m0 now) }) := by
  constructor
  · have h7 : (7 : ℚ) * 86400000 ≤ (now : ℚ) := by
      have hc : ((7 * DAY_MS : ℕ) : ℚ) ≤ (now : ℚ) := Nat.cast_le.mpr hnow
      calc (7 : ℚ) * 86400000 = ((7 * DAY_MS : ℕ) : ℚ) := by norm_num [DAY_MS]
        _ ≤ (now : ℚ) := hc
    unfold effectiveImportance specEffectiveImportance
    rw [DECAY_RATE_eq, ACCESS_BOOST_RATE_eq, MIN_IMPORTANCE_eq]
    rw [show MAX_ACCESS_BOOST = (2 : ℚ) from rfl]
    rw [mul_comm ((ac : ℚ)) ((1 : ℚ) / 10)]
    cases la with
    | none => rfl
    | some lav =>
        dsimp only
        by_cases h0 : lav = 0
        · subst h0
          have hn1 : ¬ ((now : ℚ) - ((0 : ℕ) : ℚ)) / 86400000 < 1 := by
            rw [not_lt, Nat.cast_zero, sub_zero, le_div_iff₀ (by norm_num)]
            linarith
          have hn7 : ¬ ((now : ℚ) - ((0 : ℕ) : ℚ)) / 86400000 < 7 := by
            rw [not_lt, Nat.cast_zero, sub_zero, le_div_iff₀ (by norm_num)]
            linarith
          rw [if_pos rfl, if_neg hn1, if_neg hn7]
        · rw [if_neg h0, mkRat_13_10_eq, mkRat_11_10_eq]
  · unfold runDecayMaintenance
    refine foldl_preserves_mem
      (fun p : Store × Nat => ∀ m1 ∈ p.1.memories,
        m1 ∈ s.memories ∨ ∃ m0, m0 ∈ s.memories ∧ m1.id = m0.id ∧
          mkRat 5 100 < |m0.importance - effImp m0 now| ∧
          m1 = applyUpdate m0 { importance := some (effImp m0 now) })
      _ _ ?_ _ (fun m1 hm1 => Or.inl hm1)
    intro p m hmga hp
    by_cases hc : mkRat 5 100 < |m.importance - effImp m now|
    · rw [if_pos hc]
      have hmS : m ∈ s.memories := (mem_of_mem_getActive s 500 m hmga).1
      intro m1 hm1
      unfold update at hm1
      cases hfind : getMem p.1 m.id with
      | none => rw [hfind] at hm1; exact hp m1 hm1
      | some ex =>
          rw [hfind] at hm1
          simp only at hm1
          obtain ⟨a, ha, rfl⟩ := List.mem_map.mp hm1
          by_cases hj : a.id = m.id
          · rw [if_pos hj]
            have hexmem : ex ∈ p.1.memories := List.mem_of_find?_eq_some hfind
            have hexid : ex.id = m.id := by
              have := List.find?_some hfind; simpa using this
            rcases hp ex hexmem with hexS | ⟨m0, hm0S, hexid0, hth0, hexq⟩
            · have hexm : ex = m :=
                List.inj_on_of_nodup_map hids hexS hmS hexid
              subst hexm
              exact Or.inr ⟨ex, hmS, rfl, hc, rfl⟩
            · have hm0id : m0.id = m.id := by rw [← hexid0]; exact hexid
              have hm0m : m0 = m :=
                List.inj_on_of_nodup_map hids hm0S hmS hm0id
              subst hm0m
              rw [hexq, applyUpdate_imp_twice]
              exact Or.inr ⟨m0, hm0S, rfl, hc, rfl⟩
          · rw [if_neg hj]
            exact hp a ha
    · rw [if_neg hc]
      exact hp

/-- Witness for C5 at concrete inputs. -/
theorem C5_witness :
    (7 * DAY_MS ≤ 8 * DAY_MS ∧
      ((Store.mk [{ id := "w", type := .INSIGHT, intent := "z", action := "a" }] [] [] 0).memories.map
        (fun m => m.id)).Nodup) ∧
    (effectiveImportance (mkRat 1 2) 0 3 (some (6 * DAY_MS)) (8 * DAY_MS)
        = specEffectiveImportance (mkRat 1 2) 0 3 (some (6 * DAY_MS)) (8 * DAY_MS) ∧
      (∀ m1 ∈ (runDecayMaintenance
          (Store.mk [{ id := "w", type := .INSIGHT, intent := "z", action := "a" }] [] [] 0)
          (8 * DAY_MS)).1.memories,
        m1 ∈ (Store.mk [{ id := "w", type := .INSIGHT, intent := "z", action := "a" }] [] [] 0).memories ∨
        ∃ m0, m0 ∈ (Store.mk [{ id := "w", type := .INSIGHT, intent := "z", action := "a" }] [] [] 0).memories ∧
          m1.id = m0.id ∧
          mkRat 5 100 < |m0.importance - effImp m0 (8 * DAY_MS)| ∧
          m1 = applyUpdate m0 { importance := some (effImp m0 (8 * DAY_MS)) })) :=
  ⟨⟨by decide, by decide⟩,
    C5_effectiveImportance_spec (mkRat 1 2) 0 3 (some (6 * DAY_MS)) (8 * DAY_MS)
      (Store.mk [{ id := "w", type := .INSIGHT, intent := "z", action := "a" }] [] [] 0)
      (by decide) (by decide)⟩

/-! ### Ranker lemmas (C6) -/

theorem mem_mergeSeen (ftsResults vectorResults : List ScoredMemory) (now : Nat)
    (currentFile : Option String) :
    ∀ r ∈ mergeSeen ftsResults vectorResults now currentFile,
      ∃ e ∈ ftsResults ++ vectorResults, r = boostScore now currentFile e := by
  unfold mergeSeen
  have h := foldl_preserves_mem
    (fun acc : List String × List ScoredMemory =>
      ∀ r ∈ acc.2, ∃ e ∈ ftsResults ++ vectorResults, r = boostScore now currentFile e)
    (fun acc r => if acc.1.contains r.memory.id then acc
      else (acc.1 ++ [r.memory.id], acc.2 ++ [boostScore now currentFile r]))
    (ftsResults ++ vectorResults) ?_ ([], []) ?_
  · exact h
  · intro acc a ha hacc
    dsimp only
    by_cases hseen : acc.1.contains a.memory.id = true
    · rw [if_pos hseen]; exact hacc
    · rw [if_neg hseen]
      intro r hr
      rcases List.mem_append.mp hr with hrold | hrnew
      · exact hacc r hrold
      · rcases List.mem_singleton.mp hrnew with rfl
        exact ⟨a, ha, rfl⟩
  · intro r hr; cases hr

/-- **C6.**  Every entry produced by `rankResults` carries the score of its
source entry multiplied by exactly the product of the kind boost, the access
boost `1 + 0.1 × access_count`, the recency boost (1.5 under a day, 1.2 under
a week, else 1), and the file-affinity boost (1.5 on a bidirectional substring
match with a given non-empty `current_file`, else 1); the boost tables take
the claimed values. -/
theorem C6_rankResults_boosts (ftsResults vectorResults : List ScoredMemory)
    (maxResults : Nat) (currentFile : Option String) (now : Nat) :
    (∀ r ∈ rankResults ftsResults vectorResults maxResults currentFile now,
      ∃ e ∈ ftsResults ++ vectorResults, r.memory = e.memory ∧
        r.score = e.score * typeBoost e.memory.type * accessBoostOf e.memory
          * recencyBoostOf now e.memory * fileBoostOf currentFile e.memory) ∧
    (typeBoost .CORRECTION = 3 / 2 ∧ typeBoost .DECISION = 13 / 10 ∧
      typeBoost .CONVENTION = 6 / 5 ∧ typeBoost .BUG_FIX = 11 / 10 ∧
      typeBoost .INSIGHT = 1 ∧ typeBoost .DEPENDENCY = 4 / 5) ∧
    (∀ m : MemoryUnit, accessBoostOf m = 1 + (m.accessCount : ℚ) * (1 / 10)) ∧
    (∀ (m : MemoryUnit) (n0 : Nat), recencyBoostOf n0 m =
      if n0 - ageBase m < DAY_MS then 3 / 2
      else if n0 - ageBase m < 7 * DAY_MS then 6 / 5 else 1) ∧
    (∀ (m : MemoryUnit) (cf : String), fileBoostOf (some cf) m =
      if cf ≠ "" ∧ m.relatedFiles.any (fun f => strIncludes f cf || strIncludes cf f) = true
      then 3 / 2 else 1) ∧
    (∀ m : MemoryUnit, fileBoostOf none m = 1) := by
  refine ⟨?_, ⟨?_, ?_, ?_, ?_, rfl, ?_⟩, ?_, ?_, ?_, fun _ => rfl⟩
  · intro r hr
    have hmerged : r ∈ mergeSeen ftsResults vectorResults now currentFile := by
      unfold rankResults at hr
      have h1 := (List.take_sublist _ _).mem hr
      exact (List.mem_insertionSort _).mp h1
    obtain ⟨e, he, rfl⟩ := mem_mergeSeen _ _ _ _ r hmerged
    exact ⟨e, he, rfl, rfl⟩
  · simp [typeBoost, Rat.mkRat_eq_div]
  · simp [typeBoost, Rat.mkRat_eq_div]
  · simp [typeBoost, Rat.mkRat_eq_div]
  · simp [typeBoost, Rat.mkRat_eq_div]
  · simp [typeBoost, Rat.mkRat_eq_div]
  · intro m
    simp [accessBoostOf, Rat.mkRat_eq_div]
  · intro m n0
    unfold recencyBoostOf
    by_cases h1 : n0 - ageBase m < DAY_MS
    · rw [if_pos h1, if_pos h1, mkRat_3_2_eq]
    · rw [if_neg h1, if_neg h1]
      by_cases h2 : n0 - ageBase m < 7 * DAY_MS
      · rw [if_pos h2, if_pos h2, mkRat_6_5_eq]
      · rw [if_neg h2, if_neg h2]
  · intro m cf
    unfold fileBoostOf
    dsimp only
    have hiff : ((decide (cf ≠ "") &&
          m.relatedFiles.any (fun f => strIncludes f cf || strIncludes cf f)) = true)
        ↔ (cf ≠ "" ∧ m.relatedFiles.any (fun f => strIncludes f cf || strIncludes cf f) = true) := by
      simp [Bool.and_eq_true, decide_eq_true_eq]
    by_cases hb : (decide (cf ≠ "") &&
        m.relatedFiles.any (fun f => strIncludes f cf || strIncludes cf f)) = true
    · rw [if_pos hb, if_pos (hiff.mp hb), mkRat_3_2_eq]
    · rw [if_neg hb, if_neg (fun hcontra => hb (hiff.mpr hcontra))]

/-- Witness for C6 at a one-entry FTS list. -/
theorem C6_witness :
    boostScore 0 none (ScoredMemory.mk { id := "m1", type := .CORRECTION, intent := "z", action := "a" } 1)
      ∈ rankResults [ScoredMemory.mk { id := "m1", type := .CORRECTION, intent := "z", action := "a" } 1] [] 5 none 0 ∧
    (∃ e ∈ [ScoredMemory.mk { id := "m1", type := .CORRECTION, intent := "z", action := "a" } 1] ++ ([] : List ScoredMemory),
      (boostScore 0 none (ScoredMemory.mk { id := "m1", type := .CORRECTION, intent := "z", action := "a" } 1)).memory = e.memory ∧
      (boostScore 0 none (ScoredMemory.mk { id := "m1", type := .CORRECTION, intent := "z", action := "a" } 1)).score
        = e.score * typeBoost e.memory.type * accessBoostOf e.memory
          * recencyBoostOf 0 e.memory * fileBoostOf none e.memory) := by
  have hmem : boostScore 0 none (ScoredMemory.mk { id := "m1", type := .CORRECTION, intent := "z", action := "a" } 1)
      ∈ rankResults [ScoredMemory.mk { id := "m1", type := .CORRECTION, intent := "z", action := "a" } 1] [] 5 none 0 := by
    simp [rankResults, mergeSeen, List.insertionSort, List.orderedInsert]
  exact ⟨hmem,
    (C6_rankResults_boosts [ScoredMemory.mk { id := "m1", type := .CORRECTION, intent := "z", action := "a" } 1]
      [] 5 none 0).1 _ hmem⟩

/-! ### Vector-search lemmas (C10) -/

theorem qsqrt_one : qsqrt 1 = 1 := by decide

theorem qsqrt_zero : qsqrt 0 = 0 := by decide

/-- A store in which the best-scoring indexed vector belongs to a deactivated
row while two active rows hold vectors: with `limit = 1` the candidate list is
truncated to the inactive top row before the activity filter runs. -/
def truncDemoStore : Store :=
  { memories := [
      { id := "a", type := .INSIGHT, intent := "za", action := "x", isActive := false },
      { id := "b", type := .INSIGHT, intent := "zb", action := "x" },
      { id := "c", type := .INSIGHT, intent := "zc", action := "x" }],
    edges := [], vectors := [("a", [1]), ("b", [0]), ("c", [0])], nextId := 0 }

/-- **C10.**  `searchVector` never returns an inactive item; yet because the
candidate list is truncated to the top `limit` scores before the `is_active`
filter and deactivated rows keep their vectors in the in-memory index, a store
with more than `limit` active vector-holding rows can yield fewer than `limit`
results. -/
theorem C10_searchVector_inactive_truncation :
    (∀ (s : Store) (q : List ℚ) (limit : Nat),
      (searchVector s q limit).all (fun r => r.memory.isActive) = true) ∧
    1 < (truncDemoStore.memories.filter (fun m =>
        m.isActive && truncDemoStore.vectors.any (fun p => p.1 = m.id))).length ∧
    (searchVector truncDemoStore [1] 1).length < 1 := by
  refine ⟨?_, by decide, ?_⟩
  · intro s q limit
    rw [List.all_eq_true]
    intro r hr
    simp only [searchVector] at hr
    exact (List.mem_filter.mp hr).2
  · have hsv : scoreVectors truncDemoStore [1] = [("a", 1), ("b", 0), ("c", 0)] := by
      simp only [scoreVectors, truncDemoStore, cosineSimilarity, List.map_cons, List.map_nil,
        List.zipWith_cons_cons, List.zipWith_nil_right, List.sum_cons, List.sum_nil]
      norm_num [qsqrt_one, qsqrt_zero]
    simp only [searchVector, hsv]
    decide

/-! ### Dedup lemmas (C2) -/

theorem sim_pos_threshold : ¬ DEDUP_SIM_THRESHOLD ≤ (0 : ℚ) := by
  rw [DEDUP_SIM_THRESHOLD_eq]; norm_num

theorem tokenSet_card_ne_zero_of_sim (A B : Finset String)
    (h : DEDUP_SIM_THRESHOLD ≤ jaccardSim A B) : ¬ A.card = 0 := by
  intro hA
  unfold jaccardSim at h
  by_cases hu : 0 < (A ∪ B).card
  · rw [if_pos hu] at h
    have hempty : A = ∅ := Finset.card_eq_zero.mp hA
    have hinter : (A ∩ B).card = 0 := by simp [hempty]
    rw [hinter] at h
    rw [Rat.mkRat_eq_div] at h
    push_cast at h
    rw [zero_div] at h
    exact sim_pos_threshold h
  · rw [if_neg hu] at h
    exact sim_pos_threshold h

theorem length_filter_active_map (l : List MemoryUnit) (f : MemoryUnit → MemoryUnit)
    (hf : ∀ m, (f m).isActive = m.isActive) :
    ((l.map f).filter (fun m => m.isActive)).length
      = (l.filter (fun m => m.isActive)).length := by
  induction l with
  | nil => rfl
  | cons m l ih =>
      rw [List.map_cons, List.filter_cons, List.filter_cons, hf m]
      by_cases ha : m.isActive = true
      · rw [if_pos ha, if_pos ha]
        simp only [List.length_cons, ih]
      · rw [if_neg ha, if_neg ha]
        exact ih

theorem activeCount_touch (s : Store) (i : String) (now : Nat) :
    activeCount (touch s i now) = activeCount s := by
  unfold activeCount touch
  exact length_filter_active_map _ _ (fun m => by by_cases h : m.id = i <;> simp [h])

/-- **C2 (amended).**  `MemoryStore.add` deduplicates against the first 200
active rows of the kind that the `LIMIT 200` candidate query returns: if one of
those has Jaccard similarity ≥ 0.7 with the new intent, `add` touches an
existing matching row and returns it as-is with the active count unchanged;
otherwise it inserts a fresh row with a new id and the active count grows by
one.  (The unamended claim quantifies over *all* active rows of the kind; the
counterexample places the only match at position 201.) -/
theorem C2_add_dedup_window (s : Store) (args : AddArgs) (now : Nat)
    (hid : args.id = none)
    (hfresh : ∀ m ∈ s.memories, m.id ≠ uuid s.nextId) :
    ((∃ d ∈ (s.memories.filter (fun m => decide (m.type = args.type) && m.isActive)).take 200,
        DEDUP_SIM_THRESHOLD ≤ jaccardSim (tokenSet args.intent) (tokenSet d.intent)) →
      ∃ d0, add s args now = (touch s d0.id now, d0) ∧ d0 ∈ s.memories ∧
        d0.isActive = true ∧ d0.type = args.type ∧
        DEDUP_SIM_THRESHOLD ≤ jaccardSim (tokenSet args.intent) (tokenSet d0.intent) ∧
        activeCount (add s args now).1 = activeCount s) ∧
    ((∀ d ∈ (s.memories.filter (fun m => decide (m.type = args.type) && m.isActive)).take 200,
        ¬ DEDUP_SIM_THRESHOLD ≤ jaccardSim (tokenSet args.intent) (tokenSet d.intent)) →
      activeCount (add s args now).1 = activeCount s + 1 ∧
      (add s args now).2.id ∉ s.memories.map (fun m => m.id)) := by
  constructor
  · rintro ⟨d, hd, hsim⟩
    have hcard : ¬ (tokenSet args.intent).card = 0 :=
      tokenSet_card_ne_zero_of_sim _ _ hsim
    have hsome : (List.find? (fun row =>
        decide (DEDUP_SIM_THRESHOLD ≤ jaccardSim (tokenSet args.intent) (tokenSet row.intent)))
        ((s.memories.filter (fun m => decide (m.type = args.type) && m.isActive)).take 200)).isSome := by
      rw [List.find?_isSome]
      exact ⟨d, hd, by simpa using hsim⟩
    obtain ⟨d0, hd0⟩ := Option.isSome_iff_exists.mp hsome
    have hfd : findDuplicate s args.type args.intent = some d0 := by
      unfold findDuplicate
      rw [if_neg hcard]
      exact hd0
    have hd0c := List.mem_of_find?_eq_some hd0
    have hd0p := List.find?_some hd0
    have hd0filter := List.mem_filter.mp ((List.take_sublist _ _).mem hd0c)
    have hadd : add s args now = (touch s d0.id now, d0) := by
      unfold add; rw [hfd]
    refine ⟨d0, hadd, hd0filter.1, ?_, ?_, by simpa using hd0p, ?_⟩
    · have := hd0filter.2; simp at this; exact this.2
    · have := hd0filter.2; simp at this; exact this.1
    · rw [hadd]; exact activeCount_touch s d0.id now
  · intro hno
    have hfd : findDuplicate s args.type args.intent = none := by
      unfold findDuplicate
      by_cases hcard : (tokenSet args.intent).card = 0
      · rw [if_pos hcard]
      · rw [if_neg hcard]
        rw [List.find?_eq_none]
        intro d hd
        simpa using hno d hd
    have hadd := hfd
    constructor
    · show activeCount (add s args now).1 = _
      unfold add
      rw [hadd]
      simp only [activeCount, List.filter_append]
      rw [List.length_append]
      norm_num
    · show (add s args now).2.id ∉ _
      unfold add
      rw [hadd]
      simp only [hid, Option.getD_none, List.mem_map]
      rintro ⟨m, hm, hmid⟩
      exact hfresh m hm hmid

/-- C2 counterexample: a store of 201 active CONVENTION rows whose only
≥ 0.7-similar row sits at position 201, outside the 200-row scan window of
`findDuplicate`; `add` inserts a fresh row although an active same-kind item
with Jaccard similarity ≥ 0.7 exists, so the active count grows. -/
theorem C2_counterexample :
    (∃ d ∈ (Store.mk (List.replicate 200
          { id := "f", type := .CONVENTION, intent := "xxxx", action := "a" }
        ++ [{ id := "t", type := .CONVENTION, intent := "hello", action := "a" }]) [] [] 0).memories,
      d.isActive = true ∧ d.type = .CONVENTION ∧
      DEDUP_SIM_THRESHOLD ≤ jaccardSim (tokenSet "hello") (tokenSet d.intent)) ∧
    activeCount (add (Store.mk (List.replicate 200
          { id := "f", type := .CONVENTION, intent := "xxxx", action := "a" }
        ++ [{ id := "t", type := .CONVENTION, intent := "hello", action := "a" }]) [] [] 0)
        ({ type := .CONVENTION, intent := "hello", action := "a" } : AddArgs) 999).1
      = activeCount (Store.mk (List.replicate 200
          { id := "f", type := .CONVENTION, intent := "xxxx", action := "a" }
        ++ [{ id := "t", type := .CONVENTION, intent := "hello", action := "a" }]) [] [] 0) + 1 := by
  decide

/-- Witness for the amended C2 at a one-row store whose row matches. -/
theorem C2_witness :
    (({ type := .CONVENTION, intent := "hello there friend", action := "a" } : AddArgs).id = none ∧
      (∀ m ∈ (Store.mk [{ id := "d1", type := .CONVENTION, intent := "hello there friend", action := "a" }] [] [] 3).memories,
        m.id ≠ uuid 3)) ∧
    (((∃ d ∈ ((Store.mk [{ id := "d1", type := .CONVENTION, intent := "hello there friend", action := "a" }] [] [] 3).memories.filter
          (fun m => decide (m.type = MemoryType.CONVENTION) && m.isActive)).take 200,
        DEDUP_SIM_THRESHOLD ≤ jaccardSim (tokenSet "hello there friend") (tokenSet d.intent)) →
      ∃ d0, add (Store.mk [{ id := "d1", type := .CONVENTION, intent := "hello there friend", action := "a" }] [] [] 3)
          { type := .CONVENTION, intent := "hello there friend", action := "a" } 7
          = (touch (Store.mk [{ id := "d1", type := .CONVENTION, intent := "hello there friend", action := "a" }] [] [] 3) d0.id 7, d0) ∧
        d0 ∈ (Store.mk [{ id := "d1", type := .CONVENTION, intent := "hello there friend", action := "a" }] [] [] 3).memories ∧
        d0.isActive = true ∧ d0.type = MemoryType.CONVENTION ∧
        DEDUP_SIM_THRESHOLD ≤ jaccardSim (tokenSet "hello there friend") (tokenSet d0.intent) ∧
        activeCount (add (Store.mk [{ id := "d1", type := .CONVENTION, intent := "hello there friend", action := "a" }] [] [] 3)
          { type := .CONVENTION, intent := "hello there friend", action := "a" } 7).1
          = activeCount (Store.mk [{ id := "d1", type := .CONVENTION, intent := "hello there friend", action := "a" }] [] [] 3)) ∧
    ((∀ d ∈ ((Store.mk [{ id := "d1", type := .CONVENTION, intent := "hello there friend", action := "a" }] [] [] 3).memories.filter
          (fun m => decide (m.type = MemoryType.CONVENTION) && m.isActive)).take 200,
        ¬ DEDUP_SIM_THRESHOLD ≤ jaccardSim (tokenSet "hello there friend") (tokenSet d.intent)) →
      activeCount (add (Store.mk [{ id := "d1", type := .CONVENTION, intent := "hello there friend", action := "a" }] [] [] 3)
          { type := .CONVENTION, intent := "hello there friend", action := "a" } 7).1
        = activeCount (Store.mk [{ id := "d1", type := .CONVENTION, intent := "hello there friend", action := "a" }] [] [] 3) + 1 ∧
      (add (Store.mk [{ id := "d1", type := .CONVENTION, intent := "hello there friend", action := "a" }] [] [] 3)
          { type := .CONVENTION, intent := "hello there friend", action := "a" } 7).2.id
        ∉ (Store.mk [{ id := "d1", type := .CONVENTION, intent := "hello there friend", action := "a" }] [] [] 3).memories.map (fun m => m.id))) :=
  ⟨⟨rfl, by decide⟩,
    C2_add_dedup_window
      (Store.mk [{ id := "d1", type := .CONVENTION, intent := "hello there friend", action := "a" }] [] [] 3)
      { type := .CONVENTION, intent := "hello there friend", action := "a" } 7 rfl (by decide)⟩

/-! ### Recall-touch lemmas (C7) -/

theorem touch_fold_memories (ids : List String) (now : Nat) :
    ∀ s : Store, ids.Nodup →
      (ids.foldl (fun st i => touch st i now) s).memories
        = s.memories.map (fun x => if x.id ∈ ids then
            { x with accessCount := x.accessCount + 1, lastAccessed := some now } else x) := by
  induction ids with
  | nil =>
      intro s _
      simp
  | cons i tl ih =>
      intro s hnd
      have hitl : i ∉ tl := (List.nodup_cons.mp hnd).1
      rw [List.foldl_cons, ih (touch s i now) (List.nodup_cons.mp hnd).2]
      show (touch s i now).memories.map _ = _
      unfold touch
      rw [List.map_map]
      refine List.map_congr_left (fun x _ => ?_)
      by_cases hx : x.id = i
      · simp only [Function.comp, if_pos hx]
        rw [if_neg (by simpa [hx] using hitl), if_pos (by simp [hx])]
      · simp only [Function.comp, if_neg hx]
        by_cases htl : x.id ∈ tl
        · rw [if_pos htl, if_pos (by simp [htl])]
        · rw [if_neg htl, if_neg (by simp [hx, htl])]

theorem update_access_corr (st : Store) (i : String) (u : UpdateArgs) :
    ∀ m1 ∈ (update st i u).memories, ∃ m0 ∈ st.memories,
      m1.id = m0.id ∧ m1.accessCount = m0.accessCount ∧ m1.lastAccessed = m0.lastAccessed := by
  intro m1 hm1
  unfold update at hm1
  cases hfind : getMem st i with
  | none =>
      rw [hfind] at hm1
      exact ⟨m1, hm1, rfl, rfl, rfl⟩
  | some ex =>
      rw [hfind] at hm1
      simp only at hm1
      obtain ⟨a, ha, rfl⟩ := List.mem_map.mp hm1
      by_cases hj : a.id = i
      · rw [if_pos hj]
        exact ⟨ex, List.mem_of_find?_eq_some hfind, rfl, rfl, rfl⟩
      · rw [if_neg hj]
        exact ⟨a, ha, rfl, rfl, rfl⟩

theorem runDecayMaintenance_access_corr (s : Store) (now : Nat) :
    ∀ m1 ∈ (runDecayMaintenance s now).1.memories, ∃ m0 ∈ s.memories,
      m1.id = m0.id ∧ m1.accessCount = m0.accessCount ∧ m1.lastAccessed = m0.lastAccessed := by
  unfold runDecayMaintenance
  refine foldl_preserves_mem
    (fun p : Store × Nat => ∀ m1 ∈ p.1.memories, ∃ m0 ∈ s.memories,
      m1.id = m0.id ∧ m1.accessCount = m0.accessCount ∧ m1.lastAccessed = m0.lastAccessed)
    _ _ ?_ _ (fun m1 hm1 => ⟨m1, hm1, rfl, rfl, rfl⟩)
  intro p m _ hp
  by_cases hc : mkRat 5 100 < |m.importance - effImp m now|
  · rw [if_pos hc]
    intro m1 hm1
    obtain ⟨mt, hmt, h1, h2, h3⟩ := update_access_corr p.1 m.id _ m1 hm1
    obtain ⟨m0, hm0, g1, g2, g3⟩ := hp mt hmt
    exact ⟨m0, hm0, h1.trans g1, h2.trans g2, h3.trans g3⟩
  · rw [if_neg hc]
    exact hp

/-- **C7 (amended).**  On a `recall_memory` call that misses the cache, every
returned item is reinforcement-touched: for each store record whose id occurs
among the returned items, `access_count` is incremented and `last_accessed` is
set to the call time.  (The unamended claim also covers cache hits; the
counterexample shows a hit returning an item untouched.) -/
theorem C7_recall_miss_touches (pipeline : RecallPipeline) (st : RecallState)
    (args : RecallArgs) (now : Nat)
    (hmiss : List.find? (fun e => decide (e.1 = "recall:" ++ args.query.getD "" ++ ":"
        ++ Nat.repr (min (args.maxResults.getD 10) 50))) st.cache = none)
    (hnodup : (((pipeline st.store (args.query.getD "") (min (args.maxResults.getD 10) 50)
        args.currentFile).take (min (args.maxResults.getD 10) 50)).map
        (fun r => r.memory.id)).Nodup) :
    (handleRecallMemory pipeline st args now).2.items
      = (pipeline st.store (args.query.getD "") (min (args.maxResults.getD 10) 50)
          args.currentFile).take (min (args.maxResults.getD 10) 50) ∧
    ∀ m1 ∈ (handleRecallMemory pipeline st args now).1.store.memories,
      ∃ m0 ∈ st.store.memories, m1.id = m0.id ∧
        ((∃ r ∈ (handleRecallMemory pipeline st args now).2.items, r.memory.id = m1.id) →
          m1.accessCount = m0.accessCount + 1 ∧ m1.lastAccessed = some now) := by
  have hgc : getCached st.cache ("recall:" ++ args.query.getD "" ++ ":"
      ++ Nat.repr (min (args.maxResults.getD 10) 50)) now = (none, st.cache) := by
    unfold getCached
    rw [hmiss]
  simp only [handleRecallMemory]
  rw [hgc]
  simp only
  refine ⟨by simp, ?_⟩
  set ranked := (pipeline st.store (args.query.getD "")
      (min (args.maxResults.getD 10) 50) args.currentFile).take
      (min (args.maxResults.getD 10) 50) with hranked
  by_cases hemp : ranked.isEmpty
  · rw [if_pos hemp]
    intro m1 hm1
    refine ⟨m1, hm1, rfl, ?_⟩
    rintro ⟨r, hr, _⟩
    rw [List.isEmpty_iff.mp hemp] at hr
    cases hr
  · rw [if_neg hemp]
    intro m1 hm1
    obtain ⟨mt, hmt, h1, h2, h3⟩ := runDecayMaintenance_access_corr _ now m1 hm1
    have hfold : (ranked.foldl (fun s r => touch s r.memory.id now) st.store).memories
        = st.store.memories.map (fun x => if x.id ∈ ranked.map (fun r => r.memory.id) then
            { x with accessCount := x.accessCount + 1, lastAccessed := some now } else x) := by
      have hf := List.foldl_map (fun r : ScoredMemory => r.memory.id)
        (fun (s : Store) (i : String) => touch s i now) ranked st.store
      rw [← hf]
      exact touch_fold_memories _ now st.store hnodup
    rw [hfold] at hmt
    obtain ⟨m0, hm0, heq⟩ := List.mem_map.mp hmt
    by_cases hin : m0.id ∈ ranked.map (fun r => r.memory.id)
    · rw [if_pos hin] at heq
      rw [← heq] at h1 h2 h3
      refine ⟨m0, hm0, by simpa using h1, fun _ => ⟨by simpa using h2, by simpa using h3⟩⟩
    · rw [if_neg hin] at heq
      rw [← heq] at h1 h2 h3
      refine ⟨m0, hm0, h1, ?_⟩
      rintro ⟨r, hr, hrid⟩
      exfalso
      apply hin
      rw [← h1, ← hrid]
      exact List.mem_map.mpr ⟨r, hr, rfl⟩

/-- Witness for the amended C7: a cache-missing recall through a one-item
pipeline touches the returned record. -/
theorem C7_witness :
    (List.find? (fun e => decide (e.1 = "recall:" ++ (RecallArgs.mk (some "q") none none).query.getD "" ++ ":"
        ++ Nat.repr (min ((RecallArgs.mk (some "q") none none).maxResults.getD 10) 50)))
      (RecallState.mk (Store.mk [{ id := "w1", type := .INSIGHT, intent := "z", action := "a" }] [] [] 0) []).cache = none ∧
     (((((fun _ _ _ _ => [ScoredMemory.mk { id := "w1", type := .INSIGHT, intent := "z", action := "a" } 1]) : RecallPipeline)
        (RecallState.mk (Store.mk [{ id := "w1", type := .INSIGHT, intent := "z", action := "a" }] [] [] 0) []).store
        ((RecallArgs.mk (some "q") none none).query.getD "")
        (min ((RecallArgs.mk (some "q") none none).maxResults.getD 10) 50)
        (RecallArgs.mk (some "q") none none).currentFile).take
        (min ((RecallArgs.mk (some "q") none none).maxResults.getD 10) 50)).map
        (fun r => r.memory.id)).Nodup) ∧
    (∀ m1 ∈ (handleRecallMemory
        ((fun _ _ _ _ => [ScoredMemory.mk { id := "w1", type := .INSIGHT, intent := "z", action := "a" } 1]) : RecallPipeline)
        (RecallState.mk (Store.mk [{ id := "w1", type := .INSIGHT, intent := "z", action := "a" }] [] [] 0) [])
        (RecallArgs.mk (some "q") none none) 42).1.store.memories,
      ∃ m0 ∈ (RecallState.mk (Store.mk [{ id := "w1", type := .INSIGHT, intent := "z", action := "a" }] [] [] 0) []).store.memories,
        m1.id = m0.id ∧
        ((∃ r ∈ (handleRecallMemory
            ((fun _ _ _ _ => [ScoredMemory.mk { id := "w1", type := .INSIGHT, intent := "z", action := "a" } 1]) : RecallPipeline)
            (RecallState.mk (Store.mk [{ id := "w1", type := .INSIGHT, intent := "z", action := "a" }] [] [] 0) [])
            (RecallArgs.mk (some "q") none none) 42).2.items, r.memory.id = m1.id) →
          m1.accessCount = m0.accessCount + 1 ∧ m1.lastAccessed = some 42)) :=
  ⟨⟨rfl, by decide⟩,
    (C7_recall_miss_touches
      ((fun _ _ _ _ => [ScoredMemory.mk { id := "w1", type := .INSIGHT, intent := "z", action := "a" } 1]) : RecallPipeline)
      (RecallState.mk (Store.mk [{ id := "w1", type := .INSIGHT, intent := "z", action := "a" }] [] [] 0) [])
      (RecallArgs.mk (some "q") none none) 42 rfl (by decide)).2⟩

/-- C7 counterexample: a `recall_memory` call answered from the cache returns
one item, yet the stored record keeps `access_count = 0` and no
`last_accessed` — no reinforcement touch happens on the hit path. -/
theorem C7_counterexample :
    ((handleRecallMemory (fun _ _ _ _ => [])
        (RecallState.mk
          (Store.mk [{ id := "c1", type := .INSIGHT, intent := "z", action := "a" }] [] [] 0)
          [("recall:q:10", CacheEntry.mk
            [ScoredMemory.mk { id := "c1", type := .INSIGHT, intent := "z", action := "a" } 1] 500)])
        (RecallArgs.mk (some "q") none none) 500).2.items.length = 1) ∧
    ((handleRecallMemory (fun _ _ _ _ => [])
        (RecallState.mk
          (Store.mk [{ id := "c1", type := .INSIGHT, intent := "z", action := "a" }] [] [] 0)
          [("recall:q:10", CacheEntry.mk
            [ScoredMemory.mk { id := "c1", type := .INSIGHT, intent := "z", action := "a" } 1] 500)])
        (RecallArgs.mk (some "q") none none) 500).1.store.memories.map
      (fun m => (m.accessCount, m.lastAccessed)) = [(0, none)]) := by
  constructor
  · rfl
  · rfl

/-! ### Import lemmas (C9) -/

/-- The fold step of `importMemories`. -/
def importStep (now : Nat) (p : ImportResult × List String) (m : ExportedMemory) :
    ImportResult × List String :=
  let key := exportKeyOfExp m
  if p.2.contains key then
    ({ p.1 with skipped := p.1.skipped + 1 }, p.2)
  else
    let r := add p.1.store
      { type := m.type, intent := m.intent, action := m.action,
        reason := m.reason, tags := some m.tags,
        relatedFiles := some m.relatedFiles,
        confidence := some m.confidence, importance := some m.importance } now
    ({ p.1 with store := r.1, imported := p.1.imported + 1 }, p.2 ++ [key])

theorem importMemories_eq_fold (s : Store) (b : ExportBundle) (now : Nat) :
    importMemories s b now
      = (b.memories.foldl (importStep now) (⟨s, 0, 0, 0⟩, activeKeys s)).1 := rfl

theorem import_fold_counts (now : Nat) (L : List ExportedMemory) :
    ∀ p : ImportResult × List String,
      (L.foldl (importStep now) p).1.imported + (L.foldl (importStep now) p).1.skipped
        = p.1.imported + p.1.skipped + L.length ∧
      (L.foldl (importStep now) p).1.errors = p.1.errors := by
  induction L with
  | nil => intro p; simp
  | cons m tl ih =>
      intro p
      rw [List.foldl_cons]
      obtain ⟨h1, h2⟩ := ih (importStep now p m)
      refine ⟨?_, ?_⟩
      · rw [h1]
        unfold importStep
        by_cases hc : p.2.contains (exportKeyOfExp m)
        · rw [if_pos hc]; simp; omega
        · rw [if_neg hc]; simp; omega
      · rw [h2]
        unfold importStep
        by_cases hc : p.2.contains (exportKeyOfExp m)
        · rw [if_pos hc]
        · rw [if_neg hc]

theorem import_fold_all_skipped (now : Nat) (L : List ExportedMemory) :
    ∀ (res : ImportResult) (ks : List String),
      (∀ m ∈ L, exportKeyOfExp m ∈ ks) →
      (L.foldl (importStep now) (res, ks)).1
        = { res with skipped := res.skipped + L.length } := by
  induction L with
  | nil =>
      intro res ks _
      simp
  | cons m tl ih =>
      intro res ks h
      rw [List.foldl_cons]
      have hc : ks.contains (exportKeyOfExp m) = true :=
        List.elem_eq_true_of_mem (h m (List.mem_cons_self _ _))
      have hstep : importStep now (res, ks) m
          = ({ res with skipped := res.skipped + 1 }, ks) := by
        unfold importStep
        rw [if_pos hc]
      rw [hstep, ih _ ks (fun m1 hm1 => h m1 (List.mem_cons_of_mem _ hm1))]
      simp
      omega

/-- **C9 (amended).**  `importMemories` counts every bundle memory as imported
or skipped, never raises (`errors` only counts caught per-memory storage
failures, none in the pure model); a bundle whose every `(type, lowercased
trimmed intent)` key is already an active key is skipped entirely with the
store untouched — in particular a second import of a bundle imports 0 and
skips all *when* the first import left every bundle key active.  (The
unamended unconditional re-import law fails: `add`-level near-duplicate dedup
can leave a bundle key inactive, see the counterexample.) -/
theorem C9_import_idempotence (s : Store) (b : ExportBundle) (now now2 : Nat) :
    ((importMemories s b now).imported + (importMemories s b now).skipped
        = b.memories.length ∧
      (importMemories s b now).errors = 0) ∧
    ((∀ m ∈ b.memories, exportKeyOfExp m ∈ activeKeys s) →
      importMemories s b now = ⟨s, 0, b.memories.length, 0⟩) ∧
    ((∀ m ∈ b.memories, exportKeyOfExp m ∈ activeKeys (importMemories s b now).store) →
      importMemories (importMemories s b now).store b now2
        = ⟨(importMemories s b now).store, 0, b.memories.length, 0⟩) := by
  refine ⟨⟨?_, ?_⟩, ?_, ?_⟩
  · rw [importMemories_eq_fold]
    have h := import_fold_counts now b.memories (⟨s, 0, 0, 0⟩, activeKeys s)
    simp only at h
    omega
  · rw [importMemories_eq_fold]
    exact (import_fold_counts now b.memories (⟨s, 0, 0, 0⟩, activeKeys s)).2
  · intro h
    rw [importMemories_eq_fold]
    rw [import_fold_all_skipped now b.memories ⟨s, 0, 0, 0⟩ (activeKeys s) h]
    simp
  · intro h
    rw [importMemories_eq_fold (importMemories s b now).store b now2]
    rw [import_fold_all_skipped now2 b.memories ⟨(importMemories s b now).store, 0, 0, 0⟩
      (activeKeys (importMemories s b now).store) h]
    simp

/-- C9 counterexample: the store holds an active CONVENTION row whose intent is
a near-duplicate (Jaccard 0.8) of the bundle memory but not an exact key
match.  Both the first and the second import of the same bundle count the
memory as imported (`add` dedup-touches instead of inserting, so the bundle
key never becomes active), contradicting "a second import of the same bundle
imports 0 and skips all". -/
theorem C9_counterexample :
    (importMemories
      (Store.mk [{ id := "e1", type := .CONVENTION, intent := "alpha beta gamma delta epsilon", action := "a" }] [] [] 0)
      (ExportBundle.mk [{ id := "x", type := .CONVENTION, intent := "alpha beta gamma delta", action := "a" }]) 10).imported = 1 ∧
    (importMemories
      (importMemories
        (Store.mk [{ id := "e1", type := .CONVENTION, intent := "alpha beta gamma delta epsilon", action := "a" }] [] [] 0)
        (ExportBundle.mk [{ id := "x", type := .CONVENTION, intent := "alpha beta gamma delta", action := "a" }]) 10).store
      (ExportBundle.mk [{ id := "x", type := .CONVENTION, intent := "alpha beta gamma delta", action := "a" }]) 20).imported = 1 ∧
    (importMemories
      (importMemories
        (Store.mk [{ id := "e1", type := .CONVENTION, intent := "alpha beta gamma delta epsilon", action := "a" }] [] [] 0)
        (ExportBundle.mk [{ id := "x", type := .CONVENTION, intent := "alpha beta gamma delta", action := "a" }]) 10).store
      (ExportBundle.mk [{ id := "x", type := .CONVENTION, intent := "alpha beta gamma delta", action := "a" }]) 20).skipped = 0 := by
  decide

/-- Witness for the amended C9: a bundle whose key is already active is fully
skipped, twice. -/
theorem C9_witness :
    (∀ m ∈ (ExportBundle.mk [{ id := "x", type := .CONVENTION, intent := "Same Intent", action := "a" }]).memories,
      exportKeyOfExp m ∈ activeKeys (Store.mk [{ id := "e1", type := .CONVENTION, intent := "same intent", action := "a" }] [] [] 0)) ∧
    importMemories (Store.mk [{ id := "e1", type := .CONVENTION, intent := "same intent", action := "a" }] [] [] 0)
      (ExportBundle.mk [{ id := "x", type := .CONVENTION, intent := "Same Intent", action := "a" }]) 10
      = ⟨Store.mk [{ id := "e1", type := .CONVENTION, intent := "same intent", action := "a" }] [] [] 0, 0,
        (ExportBundle.mk [{ id := "x", type := .CONVENTION, intent := "Same Intent", action := "a" }]).memories.length, 0⟩ :=
  ⟨by decide,
    (C9_import_idempotence (Store.mk [{ id := "e1", type := .CONVENTION, intent := "same intent", action := "a" }] [] [] 0)
      (ExportBundle.mk [{ id := "x", type := .CONVENTION, intent := "Same Intent", action := "a" }]) 10 0).2.1 (by decide)⟩

/-! ### RPC frame lemmas (C1) -/

theorem handleStoreMemory_is_result (s : Store) (o : StoreOracles) (args : ToolArgs)
    (now : Nat) : ∃ b t, (handleStoreMemory s o args now).2 = .result b t := by
  unfold handleStoreMemory
  repeat' split
  all_goals exact ⟨_, _, rfl⟩

theorem toolsCall_is_result (s : Store) (o : StoreOracles) (now : Nat)
    (tool : ToolName) (args : ToolArgs) :
    ∃ b t, (handleMCPRequest s o now (.toolsCall tool args)).2 = .result b t := by
  simp only [handleMCPRequest]
  by_cases h1 : 1000 < (args.query.getD "").length
  · rw [if_pos h1]; exact ⟨_, _, rfl⟩
  · rw [if_neg h1]
    by_cases h2 : 5000 < (args.content.getD "").length
    · rw [if_pos h2]; exact ⟨_, _, rfl⟩
    · rw [if_neg h2]
      cases tool with
      | storeMemory => exact handleStoreMemory_is_result s o args now
      | healthCheck => exact ⟨_, _, rfl⟩
      | unknownTool n => exact ⟨_, _, rfl⟩

/-- **C1 (amended).**  In the initialized adapter every tool call — failures
included — is answered with a result frame (`isError: true` for the failure
branches, e.g. an unknown tool), and JSON-RPC error objects arise only for
framing/dispatch failures (unknown resource `-32602`, unknown method
`-32601`).  In degraded mode after a fatal database-initialization failure,
however, the adapter keeps reading requests but answers every request — tool
calls such as `health_check` included — with a JSON-RPC *error object* of code
`-32603`, not with a result frame as the claim states. -/
theorem C1_result_frames_and_degraded_mode :
    (∀ (s : Store) (o : StoreOracles) (now : Nat) (tool : ToolName) (args : ToolArgs),
      ∃ b t, (handleMCPRequest s o now (.toolsCall tool args)).2 = .result b t) ∧
    (∀ (s : Store) (o : StoreOracles) (now : Nat) (n : String) (args : ToolArgs),
      (args.query.getD "").length ≤ 1000 → (args.content.getD "").length ≤ 5000 →
      (handleMCPRequest s o now (.toolsCall (.unknownTool n) args)).2
        = .result true ("Unknown tool: " ++ n)) ∧
    (∀ (s : Store) (o : StoreOracles) (now : Nat) (req : RpcRequest) (code : Int)
      (msg : String), (handleMCPRequest s o now req).2 = .errorObj code msg →
      (∃ m, req = .unknownMethod m ∧ code = -32601) ∨
      (∃ u, req = .resourcesRead u ∧ ¬ u = "memory://brain/context" ∧ code = -32602)) ∧
    (∀ (e : String) (req : RpcRequest),
      degradedHandler e req = .errorObj (-32603) ("Server Init Failed: " ++ e)) := by
  refine ⟨toolsCall_is_result, ?_, ?_, fun e req => rfl⟩
  · intro s o now n args hq hc
    simp only [handleMCPRequest]
    rw [if_neg (by omega), if_neg (by omega)]
  · intro s o now req code msg h
    cases req with
    | init => simp [handleMCPRequest] at h
    | notifInitialized => simp [handleMCPRequest] at h
    | toolsList => simp [handleMCPRequest] at h
    | resourcesList => simp [handleMCPRequest] at h
    | resourcesRead u =>
        by_cases hu : u = "memory://brain/context"
        · simp [handleMCPRequest, hu] at h
        · refine Or.inr ⟨u, rfl, hu, ?_⟩
          simp [handleMCPRequest, hu] at h
          omega
    | toolsCall tool args =>
        obtain ⟨b, t, heq⟩ := toolsCall_is_result s o now tool args
        rw [heq] at h
        simp at h
    | unknownMethod m =>
        refine Or.inl ⟨m, rfl, ?_⟩
        simp [handleMCPRequest] at h
        omega

/-- C1 counterexample: in degraded mode a `health_check` tool call is answered
with a JSON-RPC error object (code `-32603`), not with a successful response
whose result carries `isError: true`. -/
theorem C1_counterexample :
    degradedHandler "disk error"
        (.toolsCall .healthCheck (ToolArgs.mk none none none none))
      = .errorObj (-32603) "Server Init Failed: disk error" := rfl

/-- Witness for the amended C1 at a concrete unknown-tool call. -/
theorem C1_witness :
    ((((ToolArgs.mk none none none none).query.getD "").length ≤ 1000 ∧
      (((ToolArgs.mk none none none none).content.getD "").length ≤ 5000)) ∧
    (handleMCPRequest (Store.mk [] [] [] 0) {} 0
        (.toolsCall (.unknownTool "nope") (ToolArgs.mk none none none none))).2
      = .result true ("Unknown tool: " ++ "nope")) :=
  ⟨⟨by decide, by decide⟩,
    C1_result_frames_and_degraded_mode.2.1 (Store.mk [] [] [] 0) {} 0 "nope"
      (ToolArgs.mk none none none none) (by decide) (by decide)⟩

end Cortex
